import Mathlib

/-
  Verification development for the typed binary codec and architecture/OS
  dispatch engine of an ELF object-file library.

  The definitions below are a shallow embedding of the Rust source:
  machine integers are modelled as Nat (or Int for the signed codecs) with
  explicit truncation at the serialization boundary, byte streams as a list
  of byte values together with a cursor position, and fallible decoding as
  the Except monad.  The mutable decode configuration (a struct holding the
  detected machine, the detected OS/ABI and a set of ignorable errors) is
  threaded explicitly; functions that receive it by mutable reference in the
  source but never assign to it take it as an ordinary argument, and the
  top-level header decoder returns it so that frame effects are observable.
-/

namespace Elf

/-- Little-endian byte serialization: n bytes of the value v, least
significant byte first.  Bytes beyond the requested width are discarded,
which models the fixed-width unsigned integer types of the source. -/
def leBytes : Nat → Nat → List Nat
  | 0, _ => []
  | n + 1, v => (v % 256) :: leBytes n (v / 256)

/-- Big-endian byte serialization: most significant byte first. -/
def beBytes (n v : Nat) : List Nat := (leBytes n v).reverse

/-- Little-endian byte interpretation, inverse to leBytes. -/
def leValue : List Nat → Nat
  | [] => 0
  | b :: bs => b + 256 * leValue bs

/-- Big-endian byte interpretation. -/
def beValue (bs : List Nat) : Nat := leValue bs.reverse

/-- Two's-complement reading of a w-bit pattern as a signed integer. -/
def toSigned (u w : Nat) : Int :=
  if u < 2 ^ (w - 1) then (u : Int) else (u : Int) - 2 ^ w

/-- Two's-complement w-bit pattern of a signed integer. -/
def toUnsigned (v : Int) (w : Nat) : Nat :=
  (v % (2 ^ w : Nat)).toNat

/-- ELF class byte: unspecified, 32-bit or 64-bit (identification.rs). -/
inductive ElfClass where
  | unspecified
  | elf32
  | elf64
  deriving DecidableEq, Repr

/-- Decoding of an ELF class from its raw byte (the FromPrimitive derive
of the source: 0, 1 and 2 are the valid discriminants). -/
def ElfClass.fromU8 (n : Nat) : Option ElfClass :=
  match n with
  | 0 => some .unspecified
  | 1 => some .elf32
  | 2 => some .elf64
  | _ => none

/-- ELF data encoding byte: unspecified, little- or big-endian. -/
inductive ElfDataEncoding where
  | unspecified
  | littleEndian
  | bigEndian
  deriving DecidableEq, Repr

/-- Decoding of a data encoding from its raw byte. -/
def ElfDataEncoding.fromU8 (n : Nat) : Option ElfDataEncoding :=
  match n with
  | 0 => some .unspecified
  | 1 => some .littleEndian
  | 2 => some .bigEndian
  | _ => none

/-- Positional diagnostic attached to decode errors (error/mod.rs):
the file offset and the raw bytes around it. -/
structure ErrorContext where
  offset : Nat
  context : List Nat
  deriving DecidableEq, Repr

/-- Equality of error contexts in the source compares only the offset
(the PartialEq impl of ErrorContext); this instance drives the
ignore-set membership test. -/
instance : BEq ErrorContext := ⟨fun a b => a.offset == b.offset⟩

/-- Error taxonomy of the decoder (error/mod.rs).  Machines and OS/ABIs are
identified by their numeric discriminants. -/
inductive ElfError where
  | ioError
  | invalidClass (class_ : Nat)
  | invalidConstantClass (class_ : Nat)
  | invalidDataEncoding (encoding : Nat)
  | invalidConstantDataEncoding (encoding : Nat)
  | invalidIdentifierVersion (version : Nat)
  | invalidOsAbi (osAbi : Nat)
  | invalidType (context : ErrorContext)
  | invalidMachine (context : ErrorContext)
  | invalidVersion (context : ErrorContext)
  | invalidHeaderFlagForMachine (machine : Option Nat) (value : Nat)
  | invalidMachineForSectionHeaderType
      (machine : Option Nat) (expectedMachines : List Nat) (value : Nat)
  | invalidOsAbiForSectionHeaderType
      (osAbi : Option Nat) (expectedOsAbis : List Nat) (value : Nat)
  | invalidSectionHeaderType (machine : Option Nat) (value : Nat)
  | invalidSectionHeaderTypeARM32 (value : Nat)
  deriving DecidableEq, BEq, Repr

/-- Decode-time configuration: the detected machine and OS/ABI (numeric
discriminants) and the set of errors to treat as non-fatal. -/
structure Config where
  machine : Option Nat
  osAbi : Option Nat
  ignore : List ElfError
  deriving Repr

/-- Byte stream with a cursor, modelling the seekable reader. -/
structure Reader where
  data : List Nat
  pos : Nat
  deriving DecidableEq, Repr

/-- Reading exactly n bytes: succeeds when the stream holds enough bytes
past the cursor, advancing the cursor. -/
def readExact (n : Nat) (r : Reader) : Option (List Nat × Reader) :=
  if r.pos + n ≤ r.data.length then
    some ((r.data.drop r.pos).take n, ⟨r.data, r.pos + n⟩)
  else
    none

/-- Buffer left behind by a failed exact read: the zero-initialized buffer
holds whatever bytes remained, the cursor ends at end of stream (this is
the cursor behavior of the source stream type). -/
def readRemnant (n : Nat) (r : Reader) : List Nat × Reader :=
  ((r.data.drop r.pos).take n
      ++ List.replicate (n - (r.data.length - r.pos)) 0,
    ⟨r.data, r.data.length⟩)

/-- Exact read with the per-field error suppression of the source: an I/O
failure pre-registered in the ignore set is swallowed and the partially
filled buffer is used. -/
def readOrIgnore (n : Nat) (r : Reader) (cfg : Config) :
    Except ElfError (List Nat × Reader) :=
  match readExact n r with
  | some res => .ok res
  | none =>
    if cfg.ignore.contains .ioError then .ok (readRemnant n r)
    else .error .ioError

/-! Primitive codec layer (base/mod.rs).  Every decoder first validates the
compile-time class and encoding parameters EC and ED exactly as the source
does, then reads the serialized width for that type and interprets the
bytes per the encoding.  Every encoder writes the value back at the
configured width.  In-memory representations use the widest width needed
across both classes, so the class parameter only controls how many bytes
cross the boundary for the address and offset types. -/

/-- Decoding of a single byte (ElfByte::from_reader_with): one raw byte,
no class or encoding gate. -/
def elfByteFromReader (r : Reader) (cfg : Config) :
    Except ElfError (Nat × Reader) := do
  let (bs, r') ← readOrIgnore 1 r cfg
  .ok (bs.headD 0, r')

/-- Encoding of a single byte. -/
def elfByteToWriter (v : Nat) : Except ElfError (List Nat) :=
  .ok (leBytes 1 v)

/-- Shared body of the fixed-width decoders: gate on EC and ED, then read
n bytes and interpret them little- or big-endian. -/
def fixedWidthFromReader (n ec ed : Nat) (r : Reader) (cfg : Config) :
    Except ElfError (Nat × Reader) :=
  match ElfClass.fromU8 ec with
  | none => .error (.invalidConstantClass ec)
  | some class_ =>
    match ElfDataEncoding.fromU8 ed with
    | none => .error (.invalidConstantDataEncoding ed)
    | some encoding =>
      match class_, encoding with
      | .elf32, .littleEndian | .elf64, .littleEndian => do
        let (bs, r') ← readOrIgnore n r cfg
        .ok (leValue bs, r')
      | .elf32, .bigEndian | .elf64, .bigEndian => do
        let (bs, r') ← readOrIgnore n r cfg
        .ok (beValue bs, r')
      | _, _ => .error (.invalidConstantClass ec)

/-- Shared body of the fixed-width encoders: gate on EC and ED, then emit
the n-byte little- or big-endian serialization. -/
def fixedWidthToWriter (n ec ed v : Nat) : Except ElfError (List Nat) :=
  match ElfClass.fromU8 ec with
  | none => .error (.invalidConstantClass ec)
  | some class_ =>
    match ElfDataEncoding.fromU8 ed with
    | none => .error (.invalidConstantDataEncoding ed)
    | some encoding =>
      match class_, encoding with
      | .elf32, .littleEndian | .elf64, .littleEndian => .ok (leBytes n v)
      | .elf32, .bigEndian | .elf64, .bigEndian => .ok (beBytes n v)
      | _, _ => .error (.invalidConstantClass ec)

/-- Decoding of a half-word (ElfHalfWord): 16 bits for both classes. -/
def elfHalfWordFromReader (ec ed : Nat) (r : Reader) (cfg : Config) :
    Except ElfError (Nat × Reader) :=
  fixedWidthFromReader 2 ec ed r cfg

/-- Encoding of a half-word. -/
def elfHalfWordToWriter (ec ed v : Nat) : Except ElfError (List Nat) :=
  fixedWidthToWriter 2 ec ed v

/-- Decoding of a word (ElfWord): 32 bits for both classes. -/
def elfWordFromReader (ec ed : Nat) (r : Reader) (cfg : Config) :
    Except ElfError (Nat × Reader) :=
  fixedWidthFromReader 4 ec ed r cfg

/-- Encoding of a word. -/
def elfWordToWriter (ec ed v : Nat) : Except ElfError (List Nat) :=
  fixedWidthToWriter 4 ec ed v

/-- Decoding of an extended word (ElfExtendedWord): 64 bits for both
classes. -/
def elfExtendedWordFromReader (ec ed : Nat) (r : Reader) (cfg : Config) :
    Except ElfError (Nat × Reader) :=
  fixedWidthFromReader 8 ec ed r cfg

/-- Encoding of an extended word. -/
def elfExtendedWordToWriter (ec ed v : Nat) : Except ElfError (List Nat) :=
  fixedWidthToWriter 8 ec ed v

/-- Decoding of a section index (ElfSection): 16 bits for both classes. -/
def elfSectionFromReader (ec ed : Nat) (r : Reader) (cfg : Config) :
    Except ElfError (Nat × Reader) :=
  fixedWidthFromReader 2 ec ed r cfg

/-- Encoding of a section index. -/
def elfSectionToWriter (ec ed v : Nat) : Except ElfError (List Nat) :=
  fixedWidthToWriter 2 ec ed v

/-- Decoding of a version symbol (ElfVersionSymbol): 16 bits for both
classes. -/
def elfVersionSymbolFromReader (ec ed : Nat) (r : Reader) (cfg : Config) :
    Except ElfError (Nat × Reader) :=
  fixedWidthFromReader 2 ec ed r cfg

/-- Encoding of a version symbol. -/
def elfVersionSymbolToWriter (ec ed v : Nat) : Except ElfError (List Nat) :=
  fixedWidthToWriter 2 ec ed v

/-- Decoding of a signed word (ElfSignedWord): a 32-bit two's-complement
pattern read for both classes. -/
def elfSignedWordFromReader (ec ed : Nat) (r : Reader) (cfg : Config) :
    Except ElfError (Int × Reader) := do
  let (u, r') ← fixedWidthFromReader 4 ec ed r cfg
  .ok (toSigned u 32, r')

/-- Encoding of a signed word: the 32-bit two's-complement pattern. -/
def elfSignedWordToWriter (ec ed : Nat) (v : Int) :
    Except ElfError (List Nat) :=
  fixedWidthToWriter 4 ec ed (toUnsigned v 32)

/-- Decoding of a signed extended word (ElfSignedExtendedWord): a 64-bit
two's-complement pattern read for both classes. -/
def elfSignedExtendedWordFromReader (ec ed : Nat) (r : Reader)
    (cfg : Config) : Except ElfError (Int × Reader) := do
  let (u, r') ← fixedWidthFromReader 8 ec ed r cfg
  .ok (toSigned u 64, r')

/-- Encoding of a signed extended word. -/
def elfSignedExtendedWordToWriter (ec ed : Nat) (v : Int) :
    Except ElfError (List Nat) :=
  fixedWidthToWriter 8 ec ed (toUnsigned v 64)

/-- Decoding of an address (ElfAddress): 4 serialized bytes zero-extended
to the 64-bit in-memory representation for class 32, 8 bytes for class 64
(the four-way match of the source). -/
def elfAddressFromReader (ec ed : Nat) (r : Reader) (cfg : Config) :
    Except ElfError (Nat × Reader) :=
  match ElfClass.fromU8 ec with
  | none => .error (.invalidConstantClass ec)
  | some class_ =>
    match ElfDataEncoding.fromU8 ed with
    | none => .error (.invalidConstantDataEncoding ed)
    | some encoding =>
      match class_, encoding with
      | .elf32, .littleEndian => do
        let (bs, r') ← readOrIgnore 4 r cfg
        .ok (leValue bs, r')
      | .elf32, .bigEndian => do
        let (bs, r') ← readOrIgnore 4 r cfg
        .ok (beValue bs, r')
      | .elf64, .littleEndian => do
        let (bs, r') ← readOrIgnore 8 r cfg
        .ok (leValue bs, r')
      | .elf64, .bigEndian => do
        let (bs, r') ← readOrIgnore 8 r cfg
        .ok (beValue bs, r')
      | _, _ => .error (.invalidConstantClass ec)

/-- Encoding of an address: for class 32 the stored 64-bit value is
truncated to 32 bits (self.0 as u32 in the source); for class 64 all 8
bytes are written. -/
def elfAddressToWriter (ec ed v : Nat) : Except ElfError (List Nat) :=
  match ElfClass.fromU8 ec with
  | none => .error (.invalidConstantClass ec)
  | some class_ =>
    match ElfDataEncoding.fromU8 ed with
    | none => .error (.invalidConstantDataEncoding ed)
    | some encoding =>
      match class_, encoding with
      | .elf32, .littleEndian => .ok (leBytes 4 v)
      | .elf32, .bigEndian => .ok (beBytes 4 v)
      | .elf64, .littleEndian => .ok (leBytes 8 v)
      | .elf64, .bigEndian => .ok (beBytes 8 v)
      | _, _ => .error (.invalidConstantClass ec)

/-- Decoding of an offset (ElfOffset): same width selection as the
address type. -/
def elfOffsetFromReader (ec ed : Nat) (r : Reader) (cfg : Config) :
    Except ElfError (Nat × Reader) :=
  elfAddressFromReader ec ed r cfg

/-- Encoding of an offset: same truncating width selection as the
address type. -/
def elfOffsetToWriter (ec ed v : Nat) : Except ElfError (List Nat) :=
  elfAddressToWriter ec ed v

/-- Serialized size of an address or offset: 4 bytes for class 32,
8 bytes for class 64. -/
def elfAddressSize (ec : Nat) : Nat :=
  if ec = 1 then 4 else if ec = 2 then 8 else 0

/-! Machine and OS/ABI discriminants.  The source defines machines as a
repr(u16) enum and OS/ABIs as a repr(u8) enum; both are modelled here by
their numeric discriminants together with the validity predicate the
FromPrimitive derive induces. -/

/-- Machine discriminants named by the dispatch logic. -/
def machI386 : Nat := 3
/-- MIPS I architecture machine discriminant. -/
def machMIPS : Nat := 8
/-- MIPS RS3000 little-endian machine discriminant. -/
def machMIPSRS3LE : Nat := 10
/-- PA-RISC machine discriminant. -/
def machPARISC : Nat := 15
/-- PowerPC machine discriminant. -/
def machPPC : Nat := 20
/-- ARM 32-bit machine discriminant. -/
def machARM : Nat := 40
/-- Stanford MIPS-X machine discriminant. -/
def machMIPSX : Nat := 51
/-- AMD x86-64 machine discriminant. -/
def machX86_64 : Nat := 62
/-- AARCH64 machine discriminant. -/
def machAARCH64 : Nat := 183
/-- RISC-V machine discriminant. -/
def machRISCV : Nat := 243

/-- Validity of a raw 16-bit machine value, following the discriminant
ranges of the ElfMachine enum in header/elf/mod.rs: 0 to 10, 15, 17 to 23,
36 to 120, 131 to 144, 160 to 181, 183, 185 to 224, 243, 247, 252, 258. -/
def machineValid (n : Nat) : Bool :=
  n ≤ 10 || n = 15 || (17 ≤ n && n ≤ 23) || (36 ≤ n && n ≤ 120)
    || (131 ≤ n && n ≤ 144) || (160 ≤ n && n ≤ 181) || n = 183
    || (185 ≤ n && n ≤ 224) || n = 243 || n = 247 || n = 252 || n = 258

/-- GNU/Linux OS/ABI discriminant. -/
def osAbiGnuLinux : Nat := 3
/-- SUN Solaris OS/ABI discriminant. -/
def osAbiSolaris : Nat := 6

/-- Validity of a raw OS/ABI byte, following the discriminants of the
ElfOSABI enum in header/elf/identification.rs: 0 to 3, 6 to 18, 64, 65,
97, 255. -/
def osAbiValid (n : Nat) : Bool :=
  n ≤ 3 || (6 ≤ n && n ≤ 18) || n = 64 || n = 65 || n = 97 || n = 255

/-! Architecture dispatch tables: per-architecture section-header-type
enums and their TryFromWithConfig decoders. -/

/-- AARCH64 reserved section header types (arch/aarch64.rs). -/
inductive ShtAARCH64 where
  | attributes
  deriving DecidableEq, Repr

/-- AARCH64 table decoder: validates the configured machine, then matches
against the single constant 0x70000003. -/
def shtAARCH64TryFromWith (v : Nat) (cfg : Config) :
    Except ElfError ShtAARCH64 :=
  if cfg.machine ≠ some machAARCH64 then
    .error (.invalidMachineForSectionHeaderType cfg.machine [machAARCH64] v)
  else if v = 0x70000003 then .ok .attributes
  else .error (.invalidSectionHeaderType cfg.machine v)

/-- ARM32 reserved section header types (arch/arm32.rs). -/
inductive ShtARM32 where
  | exIdx
  | preemptMap
  | attributes
  | debugOverlay
  | overlay
  deriving DecidableEq, Repr

/-- ARM32 table decoder.  Note that unlike every other architecture
table, the source takes the configuration as an unused argument and
performs no machine validation before value matching. -/
def shtARM32TryFromWith (v : Nat) (_cfg : Config) :
    Except ElfError ShtARM32 :=
  if v = 0x70000001 then .ok .exIdx
  else if v = 0x70000002 then .ok .preemptMap
  else if v = 0x70000003 then .ok .attributes
  else if v = 0x70000004 then .ok .debugOverlay
  else if v = 0x70000005 then .ok .overlay
  else .error (.invalidSectionHeaderTypeARM32 v)

/-- I386 reserved section header types (arch/i386.rs). -/
inductive ShtI386 where
  | unwind
  deriving DecidableEq, Repr

/-- I386 table decoder. -/
def shtI386TryFromWith (v : Nat) (cfg : Config) :
    Except ElfError ShtI386 :=
  if cfg.machine ≠ some machI386 then
    .error (.invalidMachineForSectionHeaderType cfg.machine [machI386] v)
  else if v = 0x70000001 then .ok .unwind
  else .error (.invalidSectionHeaderType cfg.machine v)

/-- X86-64 reserved section header types (arch/x86_64.rs). -/
inductive ShtX86_64 where
  | unwind
  deriving DecidableEq, Repr

/-- X86-64 table decoder. -/
def shtX86_64TryFromWith (v : Nat) (cfg : Config) :
    Except ElfError ShtX86_64 :=
  if cfg.machine ≠ some machX86_64 then
    .error (.invalidMachineForSectionHeaderType cfg.machine [machX86_64] v)
  else if v = 0x70000001 then .ok .unwind
  else .error (.invalidSectionHeaderType cfg.machine v)

/-- PPC reserved section header types (arch/ppc.rs): the single constant
Ordered at the maximum processor-specific value 0x7fffffff. -/
inductive ShtPPC where
  | ordered
  deriving DecidableEq, Repr

/-- PPC table decoder. -/
def shtPPCTryFromWith (v : Nat) (cfg : Config) :
    Except ElfError ShtPPC :=
  if cfg.machine ≠ some machPPC then
    .error (.invalidMachineForSectionHeaderType cfg.machine [machPPC] v)
  else if v = 0x7fffffff then .ok .ordered
  else .error (.invalidSectionHeaderType cfg.machine v)

/-- RISC-V reserved section header types (arch/riscv.rs). -/
inductive ShtRISCV where
  | attributes
  deriving DecidableEq, Repr

/-- RISC-V table decoder. -/
def shtRISCVTryFromWith (v : Nat) (cfg : Config) :
    Except ElfError ShtRISCV :=
  if cfg.machine ≠ some machRISCV then
    .error (.invalidMachineForSectionHeaderType cfg.machine [machRISCV] v)
  else if v = 0x70000003 then .ok .attributes
  else .error (.invalidSectionHeaderType cfg.machine v)

/-- PA-RISC reserved section header types (arch/parisc.rs).  The five
HP-specific constants fall in the OS-specific range 0x60000000 to
0x60000004, as in the source. -/
inductive ShtPARISC where
  | pariscExt
  | pariscUnwind
  | pariscDoc
  | pariscAnnot
  | pariscDlkm
  | pariscSymextn
  | pariscStubs
  | hpOvlbits
  | hpDlkm
  | hpComdat
  | hpObjdict
  | hpAnnot
  deriving DecidableEq, Repr

/-- PA-RISC table decoder. -/
def shtPARISCTryFromWith (v : Nat) (cfg : Config) :
    Except ElfError ShtPARISC :=
  if cfg.machine ≠ some machPARISC then
    .error (.invalidMachineForSectionHeaderType cfg.machine [machPARISC] v)
  else if v = 0x70000000 then .ok .pariscExt
  else if v = 0x70000001 then .ok .pariscUnwind
  else if v = 0x70000002 then .ok .pariscDoc
  else if v = 0x70000003 then .ok .pariscAnnot
  else if v = 0x70000004 then .ok .pariscDlkm
  else if v = 0x70000008 then .ok .pariscSymextn
  else if v = 0x70000009 then .ok .pariscStubs
  else if v = 0x60000000 then .ok .hpOvlbits
  else if v = 0x60000001 then .ok .hpDlkm
  else if v = 0x60000002 then .ok .hpComdat
  else if v = 0x60000003 then .ok .hpObjdict
  else if v = 0x60000004 then .ok .hpAnnot
  else .error (.invalidSectionHeaderType cfg.machine v)

/-- MIPS reserved section header types (arch/mips.rs). -/
inductive ShtMIPS where
  | libList
  | conflict
  | gpTable
  | uCode
  | debug
  | regInfo
  | package
  | packSym
  | relD
  | iFace
  | content
  | options
  | shdr
  | fDesc
  | extSym
  | dense
  | pDesc
  | locSym
  | auxSym
  | optSym
  | locStr
  | line
  | rfdDesc
  | deltaSym
  | deltaInst
  | deltaClass
  | dwarf
  | deltaDecl
  | symbolLib
  | events
  | translate
  | pixie
  | xLate
  | xLateDebug
  | whirl
  | ehRegion
  | xLateOld
  | pdrException
  | abiFlags
  | xHash
  deriving DecidableEq, Repr

/-- MIPS table decoder: the machine gate accepts MIPS, MIPS_RS3_LE and
MIPS_X, and the mismatch error carries the expected-machine list with
only the MIPS entry, as in the source. -/
def shtMIPSTryFromWith (v : Nat) (cfg : Config) :
    Except ElfError ShtMIPS :=
  if cfg.machine ≠ some machMIPS ∧ cfg.machine ≠ some machMIPSRS3LE
      ∧ cfg.machine ≠ some machMIPSX then
    .error (.invalidMachineForSectionHeaderType cfg.machine [machMIPS] v)
  else if v = 0x70000000 then .ok .libList
  else if v = 0x70000002 then .ok .conflict
  else if v = 0x70000003 then .ok .gpTable
  else if v = 0x70000004 then .ok .uCode
  else if v = 0x70000005 then .ok .debug
  else if v = 0x70000006 then .ok .regInfo
  else if v = 0x70000007 then .ok .package
  else if v = 0x70000008 then .ok .packSym
  else if v = 0x70000009 then .ok .relD
  else if v = 0x7000000b then .ok .iFace
  else if v = 0x7000000c then .ok .content
  else if v = 0x7000000d then .ok .options
  else if v = 0x70000010 then .ok .shdr
  else if v = 0x70000011 then .ok .fDesc
  else if v = 0x70000012 then .ok .extSym
  else if v = 0x70000013 then .ok .dense
  else if v = 0x70000014 then .ok .pDesc
  else if v = 0x70000015 then .ok .locSym
  else if v = 0x70000016 then .ok .auxSym
  else if v = 0x70000017 then .ok .optSym
  else if v = 0x70000018 then .ok .locStr
  else if v = 0x70000019 then .ok .line
  else if v = 0x7000001a then .ok .rfdDesc
  else if v = 0x7000001b then .ok .deltaSym
  else if v = 0x7000001c then .ok .deltaInst
  else if v = 0x7000001d then .ok .deltaClass
  else if v = 0x7000001e then .ok .dwarf
  else if v = 0x7000001f then .ok .deltaDecl
  else if v = 0x70000020 then .ok .symbolLib
  else if v = 0x70000021 then .ok .events
  else if v = 0x70000022 then .ok .translate
  else if v = 0x70000023 then .ok .pixie
  else if v = 0x70000024 then .ok .xLate
  else if v = 0x70000025 then .ok .xLateDebug
  else if v = 0x70000026 then .ok .whirl
  else if v = 0x70000027 then .ok .ehRegion
  else if v = 0x70000028 then .ok .xLateOld
  else if v = 0x70000029 then .ok .pdrException
  else if v = 0x7000002a then .ok .abiFlags
  else if v = 0x7000002b then .ok .xHash
  else .error (.invalidSectionHeaderType cfg.machine v)

/-- GNU reserved section header types (os/gnu.rs). -/
inductive ShtGNU where
  | incrementalInputs
  | attributes
  | hash
  | libList
  | verDef
  | verNeed
  | verSym
  deriving DecidableEq, Repr

/-- GNU table decoder: validates the configured OS/ABI against GnuLinux,
then matches the seven constants 0x6fff4700 and 0x6ffffff5 to
0x6fffffff. -/
def shtGNUTryFromWith (v : Nat) (cfg : Config) :
    Except ElfError ShtGNU :=
  if cfg.osAbi ≠ some osAbiGnuLinux then
    .error (.invalidOsAbiForSectionHeaderType cfg.osAbi [osAbiGnuLinux] v)
  else if v = 0x6fff4700 then .ok .incrementalInputs
  else if v = 0x6ffffff5 then .ok .attributes
  else if v = 0x6ffffff6 then .ok .hash
  else if v = 0x6ffffff7 then .ok .libList
  else if v = 0x6ffffffd then .ok .verDef
  else if v = 0x6ffffffe then .ok .verNeed
  else if v = 0x6fffffff then .ok .verSym
  else .error (.invalidSectionHeaderType cfg.machine v)

/-- SUN reserved section header types (os/sun.rs). -/
inductive ShtSUN where
  | verDef
  | verNeed
  | verSym
  deriving DecidableEq, Repr

/-- SUN table decoder: validates the configured OS/ABI against Solaris,
then matches the three constants 0x6ffffffd to 0x6fffffff (the same
numeric values as the GNU table). -/
def shtSUNTryFromWith (v : Nat) (cfg : Config) :
    Except ElfError ShtSUN :=
  if cfg.osAbi ≠ some osAbiSolaris then
    .error (.invalidOsAbiForSectionHeaderType cfg.osAbi [osAbiSolaris] v)
  else if v = 0x6ffffffd then .ok .verDef
  else if v = 0x6ffffffe then .ok .verNeed
  else if v = 0x6fffffff then .ok .verSym
  else .error (.invalidSectionHeaderType cfg.machine v)

/-- The tagged union of section header types (header/section/mod.rs):
generic values, architecture- and OS-specific payload variants, and the
three open catch-alls holding the raw word. -/
inductive ElfSectionHeaderType where
  | nullUndefined
  | programBits
  | symbolTable
  | stringTable
  | relocationExplicit
  | hash
  | dynamic
  | note
  | noBits
  | relocationImplicit
  | sectionHeaderLibrary
  | dynamicSymbol
  | initializerArray
  | finalizerArray
  | preInitializerArray
  | group
  | symbolTableSectionHeaderIndex
  | relR
  | aarch64 (t : ShtAARCH64)
  | arm (t : ShtARM32)
  | i386 (t : ShtI386)
  | mips (t : ShtMIPS)
  | paRisc (t : ShtPARISC)
  | ppc (t : ShtPPC)
  | riscv (t : ShtRISCV)
  | x86_64 (t : ShtX86_64)
  | otherProcessorSpecific (v : Nat)
  | gnu (t : ShtGNU)
  | sun (t : ShtSUN)
  | otherOperatingSystemSpecific (v : Nat)
  | other (v : Nat)
  deriving DecidableEq, Repr

/-- Low bound for operating system-specific section types. -/
def shtLowOperatingSystem : Nat := 0x60000000
/-- High bound for operating system-specific section types. -/
def shtHighOperatingSystem : Nat := 0x6fffffff
/-- Low bound for processor-specific section types. -/
def shtLowProcessorSpecific : Nat := 0x70000000
/-- High bound for processor-specific section types. -/
def shtHighProcessorSpecific : Nat := 0x7fffffff

/-- Classification of a raw section-header-type word, translating the
match inside ElfSectionHeaderType::from_reader_with: the generic
constants first, then the range checks.  Both range checks use the
half-open Rust range operator LOW..HIGH of the source, so each upper
bound itself is excluded. -/
def elfSectionHeaderTypeFromWord (v : Nat) (cfg : Config) :
    Except ElfError ElfSectionHeaderType :=
  if v = 0 then .ok .nullUndefined
  else if v = 1 then .ok .programBits
  else if v = 2 then .ok .symbolTable
  else if v = 3 then .ok .stringTable
  else if v = 4 then .ok .relocationExplicit
  else if v = 5 then .ok .hash
  else if v = 6 then .ok .dynamic
  else if v = 7 then .ok .note
  else if v = 8 then .ok .noBits
  else if v = 9 then .ok .relocationImplicit
  else if v = 10 then .ok .sectionHeaderLibrary
  else if v = 11 then .ok .dynamicSymbol
  else if v = 14 then .ok .initializerArray
  else if v = 15 then .ok .finalizerArray
  else if v = 16 then .ok .preInitializerArray
  else if v = 17 then .ok .group
  else if v = 18 then .ok .symbolTableSectionHeaderIndex
  else if v = 19 then .ok .relR
  else if shtLowOperatingSystem ≤ v ∧ v < shtHighOperatingSystem then
    match shtGNUTryFromWith v cfg with
    | .ok t => .ok (.gnu t)
    | .error _ =>
      match shtSUNTryFromWith v cfg with
      | .ok t => .ok (.sun t)
      | .error _ => .ok (.otherOperatingSystemSpecific v)
  else if shtLowProcessorSpecific ≤ v ∧ v < shtHighProcessorSpecific then
    match cfg.machine with
    | some 183 =>
      match shtAARCH64TryFromWith v cfg with
      | .ok t => .ok (.aarch64 t)
      | .error e => .error e
    | some 40 =>
      match shtARM32TryFromWith v cfg with
      | .ok t => .ok (.arm t)
      | .error e => .error e
    | some 3 =>
      match shtI386TryFromWith v cfg with
      | .ok t => .ok (.i386 t)
      | .error e => .error e
    | some 8 =>
      match shtMIPSTryFromWith v cfg with
      | .ok t => .ok (.mips t)
      | .error e => .error e
    | some 15 =>
      match shtPARISCTryFromWith v cfg with
      | .ok t => .ok (.paRisc t)
      | .error e => .error e
    | some 20 =>
      match shtPPCTryFromWith v cfg with
      | .ok t => .ok (.ppc t)
      | .error e => .error e
    | some 243 =>
      match shtRISCVTryFromWith v cfg with
      | .ok t => .ok (.riscv t)
      | .error e => .error e
    | some 62 =>
      match shtX86_64TryFromWith v cfg with
      | .ok t => .ok (.x86_64 t)
      | .error e => .error e
    | _ => .ok (.otherProcessorSpecific v)
  else .ok (.other v)

/-- Full decoder for the section header type: read one word, then
classify it. -/
def elfSectionHeaderTypeFromReader (ec ed : Nat) (r : Reader)
    (cfg : Config) : Except ElfError (ElfSectionHeaderType × Reader) := do
  let (v, r') ← elfWordFromReader ec ed r cfg
  match elfSectionHeaderTypeFromWord v cfg with
  | .ok t => .ok (t, r')
  | .error e => .error e

/-! Architecture-specific ELF header flag bitsets.  Each decoded flag set
retains the original raw word alongside the decoded flag sequence, and
its encoder writes the retained raw word back. -/

/-- ARM32 header flags (arch/arm32.rs): single-bit flags plus the masked
ABI-version and GCC sub-fields. -/
inductive FlagARM32 where
  | floatSoft
  | floatHard
  | be8
  | abiVersion (version : Nat)
  | gcc (flags : Nat)
  deriving DecidableEq, Repr

/-- Decoded ARM32 flag set: the flag sequence plus the retained raw
word. -/
structure FlagsARM32 where
  flags : List FlagARM32
  value : Nat
  deriving DecidableEq, Repr

/-- ARM32 flag decoder, translating ElfHeaderFlagsARM32::try_from_with:
the AbiVersion and Gcc sub-fields are pushed unconditionally first, then
FloatSoft, FloatHard and Be8 when their bits are set.  It never fails and
ignores the configuration. -/
def flagsARM32TryFromWith (v : Nat) (_cfg : Config) :
    Except ElfError FlagsARM32 :=
  let flags := [FlagARM32.abiVersion ((v &&& 0xff000000) >>> 24),
    FlagARM32.gcc (v &&& 0x00400fff)]
  let flags := if v &&& 0x00000200 ≠ 0 then
    flags ++ [FlagARM32.floatSoft] else flags
  let flags := if v &&& 0x00000400 ≠ 0 then
    flags ++ [FlagARM32.floatHard] else flags
  let flags := if v &&& 0x00800000 ≠ 0 then
    flags ++ [FlagARM32.be8] else flags
  .ok ⟨flags, v⟩

/-- ARM32 flag encoder: writes the retained raw word. -/
def flagsARM32ToWriter (ec ed : Nat) (fs : FlagsARM32) :
    Except ElfError (List Nat) :=
  elfWordToWriter ec ed fs.value

/-- MIPS architecture-level sub-field of the header flags word, selected
by mask 0xf0000000 (arch/mips.rs). -/
inductive MipsArchitecture where
  | mips1
  | mips2
  | mips3
  | mips4
  | mips5
  | mips32
  | mips64
  | mips32R2
  | mips64R2
  | mips32R6
  | mips64R6
  deriving DecidableEq, Repr

/-- Decoding of the MIPS architecture sub-field from its masked value. -/
def MipsArchitecture.fromU32 (n : Nat) : Option MipsArchitecture :=
  if n = 0x00000000 then some .mips1
  else if n = 0x10000000 then some .mips2
  else if n = 0x20000000 then some .mips3
  else if n = 0x30000000 then some .mips4
  else if n = 0x40000000 then some .mips5
  else if n = 0x50000000 then some .mips32
  else if n = 0x60000000 then some .mips64
  else if n = 0x70000000 then some .mips32R2
  else if n = 0x80000000 then some .mips64R2
  else if n = 0x90000000 then some .mips32R6
  else if n = 0xa0000000 then some .mips64R6
  else none

/-- MIPS ISA extension sub-field, mask 0x0f000000. -/
inductive MipsExtension where
  | mdmx
  | mips16
  | micromips
  deriving DecidableEq, Repr

/-- Decoding of the MIPS extension sub-field from its masked value. -/
def MipsExtension.fromU32 (n : Nat) : Option MipsExtension :=
  if n = 0x08000000 then some .mdmx
  else if n = 0x04000000 then some .mips16
  else if n = 0x02000000 then some .micromips
  else none

/-- MIPS ABI sub-field, mask 0x0000f000. -/
inductive MipsABI where
  | o32
  | o64
  | eabi32
  | eabi64
  deriving DecidableEq, Repr

/-- Decoding of the MIPS ABI sub-field from its masked value. -/
def MipsABI.fromU32 (n : Nat) : Option MipsABI :=
  if n = 0x00001000 then some .o32
  else if n = 0x00002000 then some .o64
  else if n = 0x00003000 then some .eabi32
  else if n = 0x00004000 then some .eabi64
  else none

/-- MIPS machine-variant sub-field, mask 0x00ff0000. -/
inductive MipsMachine where
  | m3900
  | m4010
  | m4100
  | mAllegrex
  | m4650
  | m4120
  | m4111
  | mSb1
  | mOcteon
  | mXlr
  | mOcteon2
  | mOcteon3
  | m5400
  | m5900
  | mIamr2
  | m5500
  | m9000
  | mLs2e
  | mLs2f
  | mGs464
  | mGs464e
  | mGs264e
  deriving DecidableEq, Repr

/-- Decoding of the MIPS machine-variant sub-field from its masked
value. -/
def MipsMachine.fromU32 (n : Nat) : Option MipsMachine :=
  if n = 0x00810000 then some .m3900
  else if n = 0x00820000 then some .m4010
  else if n = 0x00830000 then some .m4100
  else if n = 0x00840000 then some .mAllegrex
  else if n = 0x00850000 then some .m4650
  else if n = 0x00870000 then some .m4120
  else if n = 0x00880000 then some .m4111
  else if n = 0x008a0000 then some .mSb1
  else if n = 0x008b0000 then some .mOcteon
  else if n = 0x008c0000 then some .mXlr
  else if n = 0x008d0000 then some .mOcteon2
  else if n = 0x008e0000 then some .mOcteon3
  else if n = 0x00910000 then some .m5400
  else if n = 0x00920000 then some .m5900
  else if n = 0x00930000 then some .mIamr2
  else if n = 0x00980000 then some .m5500
  else if n = 0x00990000 then some .m9000
  else if n = 0x00a00000 then some .mLs2e
  else if n = 0x00a10000 then some .mLs2f
  else if n = 0x00a20000 then some .mGs464
  else if n = 0x00a30000 then some .mGs464e
  else if n = 0x00a40000 then some .mGs264e
  else none

/-- MIPS header flags: eleven single-bit base flags plus the four masked
composite sub-fields. -/
inductive FlagMIPS where
  | noReorder
  | pic
  | cPic
  | xGot
  | uCode
  | abi2
  | abiOn32
  | optionsFirst
  | bitMode32
  | floatingPoint64
  | notANumber2008
  | architecture (a : MipsArchitecture)
  | extension (e : MipsExtension)
  | abi (a : MipsABI)
  | machine (m : MipsMachine)
  deriving DecidableEq, Repr

/-- Decoded MIPS flag set: the flag sequence plus the retained raw
word. -/
structure FlagsMIPS where
  flags : List FlagMIPS
  value : Nat
  deriving DecidableEq, Repr

/-- The eleven single-bit base flags of the MIPS header flags word,
tested and appended in the order of the source (the first half of
ElfHeaderFlagsMIPS::try_from_with). -/
def mipsBaseFlags (v : Nat) : List FlagMIPS :=
  let flags : List FlagMIPS := []
  let flags := if v &&& 1 ≠ 0 then flags ++ [FlagMIPS.noReorder] else flags
  let flags := if v &&& 2 ≠ 0 then flags ++ [FlagMIPS.pic] else flags
  let flags := if v &&& 4 ≠ 0 then flags ++ [FlagMIPS.cPic] else flags
  let flags := if v &&& 8 ≠ 0 then flags ++ [FlagMIPS.xGot] else flags
  let flags := if v &&& 16 ≠ 0 then flags ++ [FlagMIPS.uCode] else flags
  let flags := if v &&& 32 ≠ 0 then flags ++ [FlagMIPS.abi2] else flags
  let flags := if v &&& 64 ≠ 0 then flags ++ [FlagMIPS.abiOn32] else flags
  let flags := if v &&& 0x80 ≠ 0 then
    flags ++ [FlagMIPS.optionsFirst] else flags
  let flags := if v &&& 0x100 ≠ 0 then
    flags ++ [FlagMIPS.bitMode32] else flags
  let flags := if v &&& 512 ≠ 0 then
    flags ++ [FlagMIPS.floatingPoint64] else flags
  let flags := if v &&& 1024 ≠ 0 then
    flags ++ [FlagMIPS.notANumber2008] else flags
  flags

/-- The architecture masked sub-field step of the MIPS flag decoder:
when the field selected by mask 0xf0000000 is non-zero, append its
decoded variant or fail. -/
def mipsArchStep (v : Nat) (cfg : Config) (flags : List FlagMIPS) :
    Except ElfError (List FlagMIPS) :=
  if v &&& 0xf0000000 ≠ 0 then
    match MipsArchitecture.fromU32 (v &&& 0xf0000000) with
    | some a => .ok (flags ++ [FlagMIPS.architecture a])
    | none => .error (.invalidHeaderFlagForMachine cfg.machine v)
  else .ok flags

/-- The extension masked sub-field step (mask 0x0f000000). -/
def mipsExtStep (v : Nat) (cfg : Config) (flags : List FlagMIPS) :
    Except ElfError (List FlagMIPS) :=
  if v &&& 0x0f000000 ≠ 0 then
    match MipsExtension.fromU32 (v &&& 0x0f000000) with
    | some e => .ok (flags ++ [FlagMIPS.extension e])
    | none => .error (.invalidHeaderFlagForMachine cfg.machine v)
  else .ok flags

/-- The ABI masked sub-field step (mask 0x0000f000). -/
def mipsAbiStep (v : Nat) (cfg : Config) (flags : List FlagMIPS) :
    Except ElfError (List FlagMIPS) :=
  if v &&& 0x0000f000 ≠ 0 then
    match MipsABI.fromU32 (v &&& 0x0000f000) with
    | some a => .ok (flags ++ [FlagMIPS.abi a])
    | none => .error (.invalidHeaderFlagForMachine cfg.machine v)
  else .ok flags

/-- The machine-variant masked sub-field step (mask 0x00ff0000). -/
def mipsMachineStep (v : Nat) (cfg : Config) (flags : List FlagMIPS) :
    Except ElfError (List FlagMIPS) :=
  if v &&& 0x00ff0000 ≠ 0 then
    match MipsMachine.fromU32 (v &&& 0x00ff0000) with
    | some m => .ok (flags ++ [FlagMIPS.machine m])
    | none => .error (.invalidHeaderFlagForMachine cfg.machine v)
  else .ok flags

/-- MIPS flag decoder, translating ElfHeaderFlagsMIPS::try_from_with:
the eleven base bits are tested and appended in order, then each masked
composite group is appended when its masked field is non-zero, failing
when a non-zero masked field matches no known sub-enum entry. -/
def flagsMIPSTryFromWith (v : Nat) (cfg : Config) :
    Except ElfError FlagsMIPS :=
  match mipsArchStep v cfg (mipsBaseFlags v) with
  | .error e => .error e
  | .ok flags =>
  match mipsExtStep v cfg flags with
  | .error e => .error e
  | .ok flags =>
  match mipsAbiStep v cfg flags with
  | .error e => .error e
  | .ok flags =>
  match mipsMachineStep v cfg flags with
  | .error e => .error e
  | .ok flags => .ok ⟨flags, v⟩

/-- MIPS flag encoder: writes the retained raw word. -/
def flagsMIPSToWriter (ec ed : Nat) (fs : FlagsMIPS) :
    Except ElfError (List Nat) :=
  elfWordToWriter ec ed fs.value

/-- PA-RISC architecture-version sub-field of the header flags word,
selected by mask 0xffff (arch/parisc.rs). -/
inductive PariscArchitectureVersion where
  | paRisc10
  | paRisc11
  | paRisc20
  deriving DecidableEq, Repr

/-- Decoding of the PA-RISC architecture version from its masked
value. -/
def PariscArchitectureVersion.fromU32 (n : Nat) :
    Option PariscArchitectureVersion :=
  if n = 0x020b then some .paRisc10
  else if n = 0x0210 then some .paRisc11
  else if n = 0x0214 then some .paRisc20
  else none

/-- PA-RISC header flags: five single-bit flags plus the masked
architecture-version sub-field. -/
inductive FlagPARISC where
  | trapNil
  | extensions
  | littleEndianMode
  | wideMode
  | noKernelAssistedBranchPrediction
  | lazySwap
  | architectureVersion (a : PariscArchitectureVersion)
  deriving DecidableEq, Repr

/-- Decoded PA-RISC flag set: the flag sequence plus the retained raw
word. -/
structure FlagsPARISC where
  flags : List FlagPARISC
  value : Nat
  deriving DecidableEq, Repr

/-- The six single-bit base flags of the PA-RISC header flags word,
tested and appended in the order of the source (the first half of
ElfHeaderFlagsPARISC::try_from_with). -/
def pariscBaseFlags (v : Nat) : List FlagPARISC :=
  let flags : List FlagPARISC := []
  let flags := if v &&& 0x00010000 ≠ 0 then
    flags ++ [FlagPARISC.trapNil] else flags
  let flags := if v &&& 0x00020000 ≠ 0 then
    flags ++ [FlagPARISC.extensions] else flags
  let flags := if v &&& 0x00040000 ≠ 0 then
    flags ++ [FlagPARISC.littleEndianMode] else flags
  let flags := if v &&& 0x00080000 ≠ 0 then
    flags ++ [FlagPARISC.wideMode] else flags
  let flags := if v &&& 0x00100000 ≠ 0 then
    flags ++ [FlagPARISC.noKernelAssistedBranchPrediction] else flags
  let flags := if v &&& 0x00400000 ≠ 0 then
    flags ++ [FlagPARISC.lazySwap] else flags
  flags

/-- The architecture-version masked sub-field step of the PA-RISC flag
decoder (mask 0xffff). -/
def pariscVersionStep (v : Nat) (cfg : Config) (flags : List FlagPARISC) :
    Except ElfError (List FlagPARISC) :=
  if v &&& 0xffff ≠ 0 then
    match PariscArchitectureVersion.fromU32 (v &&& 0xffff) with
    | some a => .ok (flags ++ [FlagPARISC.architectureVersion a])
    | none => .error (.invalidHeaderFlagForMachine cfg.machine v)
  else .ok flags

/-- PA-RISC flag decoder, translating
ElfHeaderFlagsPARISC::try_from_with: the six base bits are tested and
appended in order, then the masked architecture-version field when
non-zero, failing when it matches no known version. -/
def flagsPARISCTryFromWith (v : Nat) (cfg : Config) :
    Except ElfError FlagsPARISC :=
  match pariscVersionStep v cfg (pariscBaseFlags v) with
  | .error e => .error e
  | .ok flags => .ok ⟨flags, v⟩

/-- PA-RISC flag encoder: writes the retained raw word. -/
def flagsPARISCToWriter (ec ed : Nat) (fs : FlagsPARISC) :
    Except ElfError (List Nat) :=
  elfWordToWriter ec ed fs.value

/-! The ELF header and its building blocks (header/elf/mod.rs and
header/elf/identification.rs). -/

/-- Composite (masked sub-field) MIPS flag variants, as opposed to the
single-bit base flags. -/
def FlagMIPS.isComposite : FlagMIPS → Bool
  | .architecture _ => true
  | .extension _ => true
  | .abi _ => true
  | .machine _ => true
  | _ => false

/-- Composite (masked sub-field) PA-RISC flag variants. -/
def FlagPARISC.isComposite : FlagPARISC → Bool
  | .architectureVersion _ => true
  | _ => false

/-- Composite (masked sub-field) ARM32 flag variants. -/
def FlagARM32.isComposite : FlagARM32 → Bool
  | .abiVersion _ => true
  | .gcc _ => true
  | _ => false

/-- Positional diagnostic built after a failed interpretation, translating
ErrorContext::from_reader: rewind by the size of the read that just
finished and capture up to that many raw bytes. -/
def errorContextFromReader (r : Reader) (size : Nat) : ErrorContext :=
  let start := r.pos - size
  ⟨start, (r.data.drop start).take size⟩

/-- Identifier version byte: unspecified or current. -/
inductive ElfIdentifierVersion where
  | unspecified
  | current
  deriving DecidableEq, Repr

/-- Decoding of the identifier version from its raw byte. -/
def ElfIdentifierVersion.fromU8 (n : Nat) : Option ElfIdentifierVersion :=
  match n with
  | 0 => some .unspecified
  | 1 => some .current
  | _ => none

/-- The 16-byte identification prefix: magic, class, data encoding,
identifier version, OS/ABI (numeric discriminant), ABI version and
7 padding bytes.  It is always decoded byte-by-byte without reference to
class or encoding parameters. -/
structure ElfHeaderIdentifier where
  magic : List Nat
  class_ : ElfClass
  dataEncoding : ElfDataEncoding
  version : ElfIdentifierVersion
  osAbi : Nat
  abiVersion : Nat
  pad : List Nat
  deriving DecidableEq, Repr

/-- Identifier decoder, translating
ElfHeaderIdentifier::from_reader_with: 4 magic bytes (content not
validated), class, data encoding, version and OS/ABI bytes (each a hard
error when unrecognized), the raw ABI-version byte and 7 raw padding
bytes.  It writes nothing into the configuration. -/
def elfHeaderIdentifierFromReader (r : Reader) (cfg : Config) :
    Except ElfError (ElfHeaderIdentifier × Reader) := do
  let (m0, r) ← elfByteFromReader r cfg
  let (m1, r) ← elfByteFromReader r cfg
  let (m2, r) ← elfByteFromReader r cfg
  let (m3, r) ← elfByteFromReader r cfg
  let (cb, r) ← elfByteFromReader r cfg
  let class_ ← match ElfClass.fromU8 cb with
    | some c => pure c
    | none => .error (.invalidClass cb)
  let (db, r) ← elfByteFromReader r cfg
  let dataEncoding ← match ElfDataEncoding.fromU8 db with
    | some d => pure d
    | none => .error (.invalidDataEncoding db)
  let (vb, r) ← elfByteFromReader r cfg
  let version ← match ElfIdentifierVersion.fromU8 vb with
    | some w => pure w
    | none => .error (.invalidIdentifierVersion vb)
  let (ob, r) ← elfByteFromReader r cfg
  let osAbi ← if osAbiValid ob then pure ob
    else .error (.invalidOsAbi ob)
  let (ab, r) ← elfByteFromReader r cfg
  let (p0, r) ← elfByteFromReader r cfg
  let (p1, r) ← elfByteFromReader r cfg
  let (p2, r) ← elfByteFromReader r cfg
  let (p3, r) ← elfByteFromReader r cfg
  let (p4, r) ← elfByteFromReader r cfg
  let (p5, r) ← elfByteFromReader r cfg
  let (p6, r) ← elfByteFromReader r cfg
  .ok (⟨[m0, m1, m2, m3], class_, dataEncoding, version, osAbi, ab,
    [p0, p1, p2, p3, p4, p5, p6]⟩, r)

/-- Identifier encoder: the 16 bytes written back positionally. -/
def elfHeaderIdentifierToWriter (i : ElfHeaderIdentifier) :
    Except ElfError (List Nat) :=
  .ok ((i.magic.map (· % 256))
    ++ [(match i.class_ with
          | .unspecified => 0 | .elf32 => 1 | .elf64 => 2),
        (match i.dataEncoding with
          | .unspecified => 0 | .littleEndian => 1 | .bigEndian => 2),
        (match i.version with | .unspecified => 0 | .current => 1),
        i.osAbi % 256, i.abiVersion % 256]
    ++ i.pad.map (· % 256))

/-- ELF object type: the closed set of five generic values. -/
inductive ElfType where
  | noneType
  | relocatable
  | executable
  | dynamic
  | core
  deriving DecidableEq, Repr

/-- Decoding of the object type from its raw 16-bit value. -/
def ElfType.fromU16 (n : Nat) : Option ElfType :=
  match n with
  | 0 => some .noneType
  | 1 => some .relocatable
  | 2 => some .executable
  | 3 => some .dynamic
  | 4 => some .core
  | _ => none

/-- Raw 16-bit value of an object type. -/
def ElfType.toU16 : ElfType → Nat
  | .noneType => 0
  | .relocatable => 1
  | .executable => 2
  | .dynamic => 3
  | .core => 4

/-- Object type decoder: a half-word, a hard InvalidType error with
positional context when unrecognized. -/
def elfTypeFromReader (ec ed : Nat) (r : Reader) (cfg : Config) :
    Except ElfError (ElfType × Reader) := do
  let (v, r') ← elfHalfWordFromReader ec ed r cfg
  match ElfType.fromU16 v with
  | some t => .ok (t, r')
  | none => .error (.invalidType (errorContextFromReader r' 2))

/-- Machine decoder: a half-word kept as its numeric discriminant, a hard
InvalidMachine error with positional context when the value is not a
discriminant of the machine enum.  It writes nothing into the
configuration. -/
def elfMachineFromReader (ec ed : Nat) (r : Reader) (cfg : Config) :
    Except ElfError (Nat × Reader) := do
  let (v, r') ← elfHalfWordFromReader ec ed r cfg
  if machineValid v then .ok (v, r')
  else .error (.invalidMachine (errorContextFromReader r' 2))

/-- ELF version word: invalid or current. -/
inductive ElfVersion where
  | noneVersion
  | current
  deriving DecidableEq, Repr

/-- Decoding of the version from its raw 32-bit value. -/
def ElfVersion.fromU32 (n : Nat) : Option ElfVersion :=
  match n with
  | 0 => some .noneVersion
  | 1 => some .current
  | _ => none

/-- Raw 32-bit value of a version. -/
def ElfVersion.toU32 : ElfVersion → Nat
  | .noneVersion => 0
  | .current => 1

/-- Version decoder: a word; an unrecognized value is an InvalidVersion
error unless that exact error value is in the ignore set, in which case
the None version is substituted. -/
def elfVersionFromReader (ec ed : Nat) (r : Reader) (cfg : Config) :
    Except ElfError (ElfVersion × Reader) := do
  let (v, r') ← elfWordFromReader ec ed r cfg
  match ElfVersion.fromU32 v with
  | some w => .ok (w, r')
  | none =>
    let e := ElfError.invalidVersion (errorContextFromReader r' 4)
    if cfg.ignore.contains e then .ok (.noneVersion, r')
    else .error e

/-- The full ELF header.  The three optional fields hold the decoded
value when their decode succeeded and are absent when it failed and was
caught; the data tail holds the extra header bytes mandated by
header_size beyond the fixed fields. -/
structure ElfHeader where
  identifier : ElfHeaderIdentifier
  typ : ElfType
  machine : Nat
  version : ElfVersion
  entrypoint : Option Nat
  programHeaderOffset : Option Nat
  sectionHeaderOffset : Option Nat
  flags : Nat
  headerSize : Nat
  programHeaderEntrySize : Nat
  programHeaderEntryCount : Nat
  sectionHeaderEntrySize : Nat
  sectionHeaderEntryCount : Nat
  sectionNameStringTableIndex : Nat
  data : List Nat
  deriving DecidableEq, Repr

/-- Size in bytes of the fixed fields of the ELF header (ElfHeader::SIZE):
the 16 identifier bytes, type, machine, version, entry address, two
offsets, the flags word, and six half-words. -/
def elfHeaderSize (ec : Nat) : Nat :=
  16 + 2 + 2 + 4 + elfAddressSize ec + elfAddressSize ec
    + elfAddressSize ec + 4 + 2 * 6

/-- The loop reading the data tail of the header, one byte at a time. -/
def readDataTail (n : Nat) (r : Reader) (cfg : Config) :
    Except ElfError (List Nat × Reader) :=
  match n with
  | 0 => .ok ([], r)
  | n + 1 => do
    let (b, r') ← elfByteFromReader r cfg
    let (bs, r'') ← readDataTail n r' cfg
    .ok (b :: bs, r'')

/-- The optional-field pattern of ElfHeader::from_reader_with, translating
the Rust expression T::from_reader_with(reader, config).ok(): a successful
read keeps the value and the advanced reader; a short read (modelled as
ioError, which in Rust consumes the reader) leaves the reader at its end;
any other error leaves the reader unchanged. -/
def optionalFromReader (res : Except ElfError (Nat × Reader)) (r : Reader) :
    Option Nat × Reader :=
  match res with
  | .ok (v, r') => (some v, r')
  | .error .ioError => (none, (⟨r.data, r.data.length⟩ : Reader))
  | .error _ => (none, r)

/-- ELF header decoder, translating ElfHeader::from_reader_with: the
linear chain identifier, type, machine, version, then the three optional
fields whose individual decode failures are caught and turned into
absence, then flags, header size, the four counts and the string table
index, and finally the data tail of header_size minus the fixed-field
total bytes (saturating at zero).  The configuration is returned so that
effects on it are observable; no step of the source mutates it. -/
def elfHeaderFromReader (ec ed : Nat) (r : Reader) (cfg : Config) :
    Except ElfError (ElfHeader × Reader × Config) :=
  match elfHeaderIdentifierFromReader r cfg with
  | .error e => .error e
  | .ok (identifier, r) =>
  match elfTypeFromReader ec ed r cfg with
  | .error e => .error e
  | .ok (typ, r) =>
  match elfMachineFromReader ec ed r cfg with
  | .error e => .error e
  | .ok (machine, r) =>
  match elfVersionFromReader ec ed r cfg with
  | .error e => .error e
  | .ok (version, r) =>
  match optionalFromReader (elfAddressFromReader ec ed r cfg) r with
  | (entrypoint, r) =>
  match optionalFromReader (elfOffsetFromReader ec ed r cfg) r with
  | (programHeaderOffset, r) =>
  match optionalFromReader (elfOffsetFromReader ec ed r cfg) r with
  | (sectionHeaderOffset, r) =>
  match elfWordFromReader ec ed r cfg with
  | .error e => .error e
  | .ok (flags, r) =>
  match elfHalfWordFromReader ec ed r cfg with
  | .error e => .error e
  | .ok (headerSize, r) =>
  match elfHalfWordFromReader ec ed r cfg with
  | .error e => .error e
  | .ok (programHeaderEntrySize, r) =>
  match elfHalfWordFromReader ec ed r cfg with
  | .error e => .error e
  | .ok (programHeaderEntryCount, r) =>
  match elfHalfWordFromReader ec ed r cfg with
  | .error e => .error e
  | .ok (sectionHeaderEntrySize, r) =>
  match elfHalfWordFromReader ec ed r cfg with
  | .error e => .error e
  | .ok (sectionHeaderEntryCount, r) =>
  match elfHalfWordFromReader ec ed r cfg with
  | .error e => .error e
  | .ok (sectionNameStringTableIndex, r) =>
  match readDataTail (headerSize - elfHeaderSize ec) r cfg with
  | .error e => .error e
  | .ok (data, r) =>
    .ok (⟨identifier, typ, machine, version, entrypoint,
      programHeaderOffset, sectionHeaderOffset, flags, headerSize,
      programHeaderEntrySize, programHeaderEntryCount,
      sectionHeaderEntrySize, sectionHeaderEntryCount,
      sectionNameStringTableIndex, data⟩, r, cfg)

/-- ELF header encoder, translating ElfHeader::to_writer: the fields are
written in decode order, an absent optional field is written as a zero of
the appropriate width, and the data tail is never written. -/
def elfHeaderToWriter (ec ed : Nat) (h : ElfHeader) :
    Except ElfError (List Nat) := do
  let identifier ← elfHeaderIdentifierToWriter h.identifier
  let typ ← elfHalfWordToWriter ec ed h.typ.toU16
  let machine ← elfHalfWordToWriter ec ed h.machine
  let version ← elfWordToWriter ec ed h.version.toU32
  let entrypoint ← elfAddressToWriter ec ed (h.entrypoint.getD 0)
  let programHeaderOffset ←
    elfOffsetToWriter ec ed (h.programHeaderOffset.getD 0)
  let sectionHeaderOffset ←
    elfOffsetToWriter ec ed (h.sectionHeaderOffset.getD 0)
  let flags ← elfWordToWriter ec ed h.flags
  let headerSize ← elfHalfWordToWriter ec ed h.headerSize
  let phes ← elfHalfWordToWriter ec ed h.programHeaderEntrySize
  let phec ← elfHalfWordToWriter ec ed h.programHeaderEntryCount
  let shes ← elfHalfWordToWriter ec ed h.sectionHeaderEntrySize
  let shec ← elfHalfWordToWriter ec ed h.sectionHeaderEntryCount
  let snsti ← elfHalfWordToWriter ec ed h.sectionNameStringTableIndex
  .ok (identifier ++ typ ++ machine ++ version ++ entrypoint
    ++ programHeaderOffset ++ sectionHeaderOffset ++ flags ++ headerSize
    ++ phes ++ phec ++ shes ++ shec ++ snsti)

/-! Concrete sample inputs used to instantiate the header theorems: a
minimal complete class-32 little-endian header whose entry point and
offset words are all zero, and a variant whose header-size field exceeds
the fixed-field total by one so that a one-byte data tail follows. -/

/-- A complete 52-byte class-32 little-endian ELF header image: magic,
class 1, LSB encoding, identifier version 1, System V OS/ABI, executable
type, machine 0x3e, version 1, zero entry point and offsets, zero flags,
header size 52 and zero table sizes, counts and string-table index. -/
def sampleBytes32 : List Nat :=
  [0x7f, 0x45, 0x4c, 0x46, 1, 1, 1, 0, 0, 0, 0, 0, 0, 0, 0, 0,
   2, 0, 0x3e, 0, 1, 0, 0, 0,
   0, 0, 0, 0, 0, 0, 0, 0, 0, 0, 0, 0,
   0, 0, 0, 0, 52, 0, 0, 0, 0, 0, 0, 0, 0, 0, 0, 0]

/-- The header value that decoding sampleBytes32 produces. -/
def sampleHeader32 : ElfHeader :=
  ⟨⟨[0x7f, 0x45, 0x4c, 0x46], .elf32, .littleEndian, .current,
      0, 0, [0, 0, 0, 0, 0, 0, 0]⟩,
    .executable, 0x3e, .current, some 0, some 0, some 0, 0, 52,
    0, 0, 0, 0, 0, []⟩

/-- A 53-byte variant of sampleBytes32 whose header-size field is 53,
one more than the fixed-field total, followed by a one-byte data tail. -/
def sampleTailBytes : List Nat :=
  [0x7f, 0x45, 0x4c, 0x46, 1, 1, 1, 0, 0, 0, 0, 0, 0, 0, 0, 0,
   2, 0, 0x3e, 0, 1, 0, 0, 0,
   0, 0, 0, 0, 0, 0, 0, 0, 0, 0, 0, 0,
   0, 0, 0, 0, 53, 0, 0, 0, 0, 0, 0, 0, 0, 0, 0, 0, 0xaa]

/-- The header value that decoding sampleTailBytes produces: header size
53 and a one-byte data tail. -/
def sampleTailHeader : ElfHeader :=
  ⟨⟨[0x7f, 0x45, 0x4c, 0x46], .elf32, .littleEndian, .current,
      0, 0, [0, 0, 0, 0, 0, 0, 0]⟩,
    .executable, 0x3e, .current, some 0, some 0, some 0, 0, 53,
    0, 0, 0, 0, 0, [0xaa]⟩

/-! Shared lemmas on the byte serialization helpers. -/

theorem leBytes_length (n v : Nat) : (leBytes n v).length = n := by
  induction n generalizing v with
  | zero => rfl
  | succ n ih => simp [leBytes, ih]

theorem leBytes_mem_lt (n v : Nat) : ∀ b ∈ leBytes n v, b < 256 := by
  induction n generalizing v with
  | zero => simp [leBytes]
  | succ n ih =>
    intro b hb
    simp only [leBytes, List.mem_cons] at hb
    rcases hb with h | h
    · omega
    · exact ih _ _ h

theorem leValue_leBytes (n v : Nat) :
    leValue (leBytes n v) = v % 256 ^ n := by
  induction n generalizing v with
  | zero => simp [leBytes, leValue, Nat.mod_one]
  | succ n ih =>
    have hmul : (256 : Nat) ^ (n + 1) = 256 * 256 ^ n := by ring
    rw [hmul, Nat.mod_mul]
    simp [leBytes, leValue, ih, Nat.mul_comm]

theorem leValue_leBytes_of_lt {n v : Nat} (h : v < 256 ^ n) :
    leValue (leBytes n v) = v := by
  rw [leValue_leBytes, Nat.mod_eq_of_lt h]

theorem leValue_lt (bs : List Nat) (h : ∀ b ∈ bs, b < 256) :
    leValue bs < 256 ^ bs.length := by
  induction bs with
  | nil => simp [leValue]
  | cons b bs ih =>
    have hb : b < 256 := h b (by simp)
    have ht : leValue bs < 256 ^ bs.length :=
      ih (fun x hx => h x (by simp [hx]))
    simp only [leValue, List.length_cons, pow_succ]
    calc b + 256 * leValue bs < 256 + 256 * leValue bs := by omega
      _ = 256 * (leValue bs + 1) := by ring
      _ ≤ 256 * (256 ^ bs.length) := by
          exact Nat.mul_le_mul_left 256 (by omega)
      _ = 256 ^ bs.length * 256 := by ring

theorem leBytes_leValue (bs : List Nat) (h : ∀ b ∈ bs, b < 256) :
    leBytes bs.length (leValue bs) = bs := by
  induction bs with
  | nil => rfl
  | cons b bs ih =>
    have hb : b < 256 := h b (by simp)
    have hmod : (b + 256 * leValue bs) % 256 = b := by
      rw [Nat.add_mul_mod_self_left, Nat.mod_eq_of_lt hb]
    have hdiv : (b + 256 * leValue bs) / 256 = leValue bs := by
      rw [Nat.add_mul_div_left _ _ (by omega)]
      simp [Nat.div_eq_of_lt hb]
    simp only [List.length_cons, leBytes, leValue, hmod, hdiv]
    exact congrArg _ (ih (fun x hx => h x (by simp [hx])))

theorem beBytes_length (n v : Nat) : (beBytes n v).length = n := by
  simp [beBytes, leBytes_length]

theorem beValue_beBytes_of_lt {n v : Nat} (h : v < 256 ^ n) :
    beValue (beBytes n v) = v := by
  simp [beValue, beBytes, leValue_leBytes_of_lt h]

theorem beBytes_beValue (bs : List Nat) (h : ∀ b ∈ bs, b < 256) :
    beBytes bs.length (beValue bs) = bs := by
  have hrev : ∀ b ∈ bs.reverse, b < 256 := fun b hb =>
    h b (List.mem_reverse.mp hb)
  have := leBytes_leValue bs.reverse hrev
  simp only [List.length_reverse] at this
  simp [beBytes, beValue, this]

theorem beValue_lt (bs : List Nat) (h : ∀ b ∈ bs, b < 256) :
    beValue bs < 256 ^ bs.length := by
  have hrev : ∀ b ∈ bs.reverse, b < 256 := fun b hb =>
    h b (List.mem_reverse.mp hb)
  have := leValue_lt bs.reverse hrev
  simpa [beValue] using this

/-! Claim C1: range-tier classification boundaries. -/

/-- C1: the claim states that section-type values in the range from
0x60000000 up to but excluding 0x70000000 are OS-specific and values from
0x70000000 up to but excluding 0x80000000 are processor-specific, with
0x6fffffff the last OS-specific value and 0x7fffffff the last
processor-specific value.  The code instead uses half-open ranges whose
upper bounds are the constants 0x6fffffff and 0x7fffffff themselves, so
both of those values classify as Other: with a GNU OS/ABI configured,
0x6fffffff (the GNU VerSym constant) never reaches the GNU table, and
with the PPC machine configured, 0x7fffffff (the PPC Ordered constant)
never reaches the PPC table.  This theorem evaluates the decoder at the
failing inputs (and at the boundary values the claim gets right). -/
theorem claim_C1_boundary_eval :
    (elfSectionHeaderTypeFromWord 0x5fffffff
        ⟨none, some osAbiGnuLinux, []⟩ =
      .ok (.other 0x5fffffff))
  ∧ (elfSectionHeaderTypeFromWord 0x60000000
        ⟨none, some osAbiGnuLinux, []⟩ =
      .ok (.otherOperatingSystemSpecific 0x60000000))
  ∧ (elfSectionHeaderTypeFromWord 0x6fffffff
        ⟨none, some osAbiGnuLinux, []⟩ =
      .ok (.other 0x6fffffff))
  ∧ (elfSectionHeaderTypeFromWord 0x6ffffffe
        ⟨none, some osAbiGnuLinux, []⟩ =
      .ok (.gnu .verNeed))
  ∧ (elfSectionHeaderTypeFromWord 0x70000000
        ⟨some machMIPS, none, []⟩ =
      .ok (.mips .libList))
  ∧ (elfSectionHeaderTypeFromWord 0x7fffffff
        ⟨some machPPC, none, []⟩ =
      .ok (.other 0x7fffffff))
  ∧ (elfSectionHeaderTypeFromWord 0x7ffffffe
        ⟨some machPPC, none, []⟩ =
      .error (.invalidSectionHeaderType (some machPPC) 0x7ffffffe)) := by
  refine ⟨?_, ?_, ?_, ?_, ?_, ?_, ?_⟩ <;> rfl

/-! Claim C3: machine gating of the architecture tables. -/

/-- C3 counterexample: the ARM32 table decoder performs no machine
validation at all.  With the configured machine set to PPC it still
accepts the ARM32 constant 0x70000001, instead of failing with a
machine-mismatch error as the claim requires of every architecture
table. -/
theorem claim_C3_counterexample :
    shtARM32TryFromWith 0x70000001 ⟨some machPPC, none, []⟩ =
      .ok .exIdx := by
  rfl

/-- C3 amended: every architecture section-header-type table except ARM32
first validates that the configured machine equals its expected machine
and on mismatch fails with InvalidMachineForSectionHeaderType carrying
the actual machine, the expected machine list and the offending raw
value, before any value matching; the ARM32 table performs no machine
validation and its result does not depend on the configuration at all. -/
theorem claim_C3_amended :
    (∀ v cfg, cfg.machine ≠ some machAARCH64 →
      shtAARCH64TryFromWith v cfg =
        .error (.invalidMachineForSectionHeaderType cfg.machine
          [machAARCH64] v))
  ∧ (∀ v cfg, cfg.machine ≠ some machI386 →
      shtI386TryFromWith v cfg =
        .error (.invalidMachineForSectionHeaderType cfg.machine
          [machI386] v))
  ∧ (∀ v cfg, cfg.machine ≠ some machX86_64 →
      shtX86_64TryFromWith v cfg =
        .error (.invalidMachineForSectionHeaderType cfg.machine
          [machX86_64] v))
  ∧ (∀ v cfg, cfg.machine ≠ some machPPC →
      shtPPCTryFromWith v cfg =
        .error (.invalidMachineForSectionHeaderType cfg.machine
          [machPPC] v))
  ∧ (∀ v cfg, cfg.machine ≠ some machRISCV →
      shtRISCVTryFromWith v cfg =
        .error (.invalidMachineForSectionHeaderType cfg.machine
          [machRISCV] v))
  ∧ (∀ v cfg, cfg.machine ≠ some machPARISC →
      shtPARISCTryFromWith v cfg =
        .error (.invalidMachineForSectionHeaderType cfg.machine
          [machPARISC] v))
  ∧ (∀ v cfg, cfg.machine ≠ some machMIPS →
      cfg.machine ≠ some machMIPSRS3LE → cfg.machine ≠ some machMIPSX →
      shtMIPSTryFromWith v cfg =
        .error (.invalidMachineForSectionHeaderType cfg.machine
          [machMIPS] v))
  ∧ (∀ v cfg cfg', shtARM32TryFromWith v cfg =
      shtARM32TryFromWith v cfg') := by
  refine ⟨?_, ?_, ?_, ?_, ?_, ?_, ?_, ?_⟩
  · intro v cfg h; simp [shtAARCH64TryFromWith, h]
  · intro v cfg h; simp [shtI386TryFromWith, h]
  · intro v cfg h; simp [shtX86_64TryFromWith, h]
  · intro v cfg h; simp [shtPPCTryFromWith, h]
  · intro v cfg h; simp [shtRISCVTryFromWith, h]
  · intro v cfg h; simp [shtPARISCTryFromWith, h]
  · intro v cfg h1 h2 h3; simp [shtMIPSTryFromWith, h1, h2, h3]
  · intro v cfg cfg'; rfl

/-- C3 amended witness: the AARCH64 table with the PPC machine configured
rejects the value 5 with the machine-mismatch error, obtained from the
amended theorem at a concrete input. -/
theorem claim_C3_amended_witness :
    shtAARCH64TryFromWith 5 ⟨some machPPC, none, []⟩ =
      .error (.invalidMachineForSectionHeaderType (some machPPC)
        [machAARCH64] 5) :=
  claim_C3_amended.1 5 ⟨some machPPC, none, []⟩ (by decide)

/-! Claim C4: decoding 0x70000001 with the PPC machine configured. -/

/-- C4 counterexample: decoding the raw value 0x70000001 with the PPC
machine configured does fail, but with InvalidSectionHeaderType, not
with the machine-mismatch error InvalidMachineForSectionHeaderType that
the claim names: the dispatcher routes the value to the PPC table, whose
machine gate passes because PPC is the configured machine, and the
failure comes from value matching. -/
theorem claim_C4_counterexample :
    (elfSectionHeaderTypeFromWord 0x70000001 ⟨some machPPC, none, []⟩ =
      .error (.invalidSectionHeaderType (some machPPC) 0x70000001))
  ∧ (ElfError.invalidSectionHeaderType (some machPPC) 0x70000001 ≠
      ElfError.invalidMachineForSectionHeaderType (some machPPC)
        [machPPC] 0x70000001) := by
  exact ⟨by rfl, by decide⟩

/-- C4 amended: decoding a section-header-type raw value of 0x70000001
with the PPC machine configured fails with InvalidSectionHeaderType
carrying the configured machine and the offending value, even though
0x70000001 is a valid i386, x86-64 and ARM32 constant: machine dispatch
selects the PPC table and the value is not in PPC's constant set.  Full
decode path reading the word 0x70000001 little-endian, class 32. -/
theorem claim_C4_amended :
    elfSectionHeaderTypeFromReader 1 1 ⟨[0x01, 0x00, 0x00, 0x70], 0⟩
        ⟨some machPPC, none, []⟩ =
      .error (.invalidSectionHeaderType (some machPPC) 0x70000001) := by
  rfl

/-! Claim C9: the OS-specific range never errors. -/

/-- C9: for every raw section-header-type value in the half-open
OS-specific range from 0x60000000 up to but excluding 0x6fffffff,
decoding never returns an error: the GNU table is tried first, on any
failure the SUN table is tried, and on any failure there the decoder
yields OtherOperatingSystemSpecific with the raw value rather than
propagating either table's error. -/
theorem claim_C9_os_range_total (v : Nat) (cfg : Config)
    (h1 : 0x60000000 ≤ v) (h2 : v < 0x6fffffff) :
    (∃ t, elfSectionHeaderTypeFromWord v cfg = .ok t)
  ∧ (∀ e1 e2, shtGNUTryFromWith v cfg = .error e1 →
      shtSUNTryFromWith v cfg = .error e2 →
      elfSectionHeaderTypeFromWord v cfg =
        .ok (.otherOperatingSystemSpecific v)) := by
  have hrange : shtLowOperatingSystem ≤ v ∧ v < shtHighOperatingSystem := by
    simp only [shtLowOperatingSystem, shtHighOperatingSystem]
    omega
  have hne : ¬(v = 0) ∧ ¬(v = 1) ∧ ¬(v = 2) ∧ ¬(v = 3) ∧ ¬(v = 4)
      ∧ ¬(v = 5) ∧ ¬(v = 6) ∧ ¬(v = 7) ∧ ¬(v = 8) ∧ ¬(v = 9)
      ∧ ¬(v = 10) ∧ ¬(v = 11) ∧ ¬(v = 14) ∧ ¬(v = 15) ∧ ¬(v = 16)
      ∧ ¬(v = 17) ∧ ¬(v = 18) ∧ ¬(v = 19) := by omega
  obtain ⟨e0, e1', e2', e3, e4, e5, e6, e7, e8, e9, e10, e11, e14, e15,
    e16, e17, e18, e19⟩ := hne
  simp only [elfSectionHeaderTypeFromWord, if_neg e0, if_neg e1',
    if_neg e2', if_neg e3, if_neg e4, if_neg e5, if_neg e6, if_neg e7,
    if_neg e8, if_neg e9, if_neg e10, if_neg e11, if_neg e14, if_neg e15,
    if_neg e16, if_neg e17, if_neg e18, if_neg e19, if_pos hrange]
  constructor
  · cases hg : shtGNUTryFromWith v cfg with
    | ok t => exact ⟨.gnu t, by simp⟩
    | error e =>
      cases hs : shtSUNTryFromWith v cfg with
      | ok t => exact ⟨.sun t, by simp⟩
      | error e' => exact ⟨.otherOperatingSystemSpecific v, by simp⟩
  · intro e1 e2 hg hs
    simp [hg, hs]

/-- C9 witness: the value 0x60001234 with an empty configuration (so both
OS tables fail on their OS/ABI gates) decodes to the OS-specific
catch-all, obtained from the range theorem at a concrete input. -/
theorem claim_C9_witness :
    elfSectionHeaderTypeFromWord 0x60001234 ⟨none, none, []⟩ =
      .ok (.otherOperatingSystemSpecific 0x60001234) :=
  (claim_C9_os_range_total 0x60001234 ⟨none, none, []⟩ (by decide)
      (by decide)).2
    (.invalidOsAbiForSectionHeaderType none [osAbiGnuLinux] 0x60001234)
    (.invalidOsAbiForSectionHeaderType none [osAbiSolaris] 0x60001234)
    (by rfl) (by rfl)

/-! Claim C2: primitive codec roundtrips. -/

theorem fixedWidth_enc_le (n ec v : Nat) (hec : ec = 1 ∨ ec = 2) :
    fixedWidthToWriter n ec 1 v = .ok (leBytes n v) := by
  rcases hec with rfl | rfl <;>
    simp [fixedWidthToWriter, ElfClass.fromU8, ElfDataEncoding.fromU8]

theorem fixedWidth_enc_be (n ec v : Nat) (hec : ec = 1 ∨ ec = 2) :
    fixedWidthToWriter n ec 2 v = .ok (beBytes n v) := by
  rcases hec with rfl | rfl <;>
    simp [fixedWidthToWriter, ElfClass.fromU8, ElfDataEncoding.fromU8]

theorem fixedWidth_dec_le (n ec : Nat) (hec : ec = 1 ∨ ec = 2)
    (bs : List Nat) (cfg : Config) (hlen : bs.length = n) :
    fixedWidthFromReader n ec 1 ⟨bs, 0⟩ cfg =
      .ok (leValue bs, ⟨bs, n⟩) := by
  subst hlen
  rcases hec with rfl | rfl <;>
    simp [fixedWidthFromReader, ElfClass.fromU8, ElfDataEncoding.fromU8,
      readOrIgnore, readExact, Bind.bind, Except.bind]

theorem fixedWidth_dec_be (n ec : Nat) (hec : ec = 1 ∨ ec = 2)
    (bs : List Nat) (cfg : Config) (hlen : bs.length = n) :
    fixedWidthFromReader n ec 2 ⟨bs, 0⟩ cfg =
      .ok (beValue bs, ⟨bs, n⟩) := by
  subst hlen
  rcases hec with rfl | rfl <;>
    simp [fixedWidthFromReader, ElfClass.fromU8, ElfDataEncoding.fromU8,
      readOrIgnore, readExact, Bind.bind, Except.bind]

theorem fixedWidth_rt1 (n ec ed v : Nat) (hec : ec = 1 ∨ ec = 2)
    (hed : ed = 1 ∨ ed = 2) (hv : v < 256 ^ n) (cfg : Config)
    (bs : List Nat) (henc : fixedWidthToWriter n ec ed v = .ok bs) :
    fixedWidthFromReader n ec ed ⟨bs, 0⟩ cfg = .ok (v, ⟨bs, n⟩) := by
  rcases hed with rfl | rfl
  · rw [fixedWidth_enc_le n ec v hec] at henc
    injection henc with henc
    subst henc
    rw [fixedWidth_dec_le n ec hec _ cfg (leBytes_length n v)]
    rw [leValue_leBytes_of_lt hv]
  · rw [fixedWidth_enc_be n ec v hec] at henc
    injection henc with henc
    subst henc
    rw [fixedWidth_dec_be n ec hec _ cfg (beBytes_length n v)]
    rw [beValue_beBytes_of_lt hv]

theorem fixedWidth_rt2 (n ec ed : Nat) (hec : ec = 1 ∨ ec = 2)
    (hed : ed = 1 ∨ ed = 2) (bs : List Nat) (cfg : Config) (v : Nat)
    (r' : Reader) (hlen : bs.length = n) (hbytes : ∀ b ∈ bs, b < 256)
    (hdec : fixedWidthFromReader n ec ed ⟨bs, 0⟩ cfg = .ok (v, r')) :
    fixedWidthToWriter n ec ed v = .ok bs := by
  rcases hed with rfl | rfl
  · rw [fixedWidth_dec_le n ec hec bs cfg hlen] at hdec
    simp only [Except.ok.injEq, Prod.mk.injEq] at hdec
    obtain ⟨hv, -⟩ := hdec
    rw [fixedWidth_enc_le n ec v hec, ← hv, ← hlen,
      leBytes_leValue bs hbytes]
  · rw [fixedWidth_dec_be n ec hec bs cfg hlen] at hdec
    simp only [Except.ok.injEq, Prod.mk.injEq] at hdec
    obtain ⟨hv, -⟩ := hdec
    rw [fixedWidth_enc_be n ec v hec, ← hv, ← hlen,
      beBytes_beValue bs hbytes]

theorem elfAddressFromReader_eq_fixedWidth (ec ed : Nat)
    (hec : ec = 1 ∨ ec = 2) (hed : ed = 1 ∨ ed = 2) (r : Reader)
    (cfg : Config) :
    elfAddressFromReader ec ed r cfg =
      fixedWidthFromReader (elfAddressSize ec) ec ed r cfg := by
  rcases hec with rfl | rfl <;> rcases hed with rfl | rfl <;> rfl

theorem elfAddressToWriter_eq_fixedWidth (ec ed v : Nat)
    (hec : ec = 1 ∨ ec = 2) (hed : ed = 1 ∨ ed = 2) :
    elfAddressToWriter ec ed v =
      fixedWidthToWriter (elfAddressSize ec) ec ed v := by
  rcases hec with rfl | rfl <;> rcases hed with rfl | rfl <;> rfl

theorem toUnsigned_lt_32 (v : Int) : toUnsigned v 32 < 2 ^ 32 := by
  unfold toUnsigned
  norm_num
  omega

theorem toUnsigned_lt_64 (v : Int) : toUnsigned v 64 < 2 ^ 64 := by
  unfold toUnsigned
  norm_num
  omega

theorem toSigned_toUnsigned_32 (v : Int) (h1 : -(2 ^ 31) ≤ v)
    (h2 : v < 2 ^ 31) : toSigned (toUnsigned v 32) 32 = v := by
  unfold toSigned toUnsigned
  norm_num at h1 h2 ⊢
  split_ifs with h <;> omega

theorem toSigned_toUnsigned_64 (v : Int) (h1 : -(2 ^ 63) ≤ v)
    (h2 : v < 2 ^ 63) : toSigned (toUnsigned v 64) 64 = v := by
  unfold toSigned toUnsigned
  norm_num at h1 h2 ⊢
  split_ifs with h <;> omega

theorem toUnsigned_toSigned_32 (u : Nat) (hu : u < 2 ^ 32) :
    toUnsigned (toSigned u 32) 32 = u := by
  unfold toSigned toUnsigned
  norm_num at hu ⊢
  split_ifs with h <;> omega

theorem toUnsigned_toSigned_64 (u : Nat) (hu : u < 2 ^ 64) :
    toUnsigned (toSigned u 64) 64 = u := by
  unfold toSigned toUnsigned
  norm_num at hu ⊢
  split_ifs with h <;> omega

theorem elfByte_dec (bs : List Nat) (cfg : Config) (hlen : bs.length = 1) :
    elfByteFromReader ⟨bs, 0⟩ cfg = .ok (bs.headD 0, ⟨bs, 1⟩) := by
  obtain ⟨b, rfl⟩ := List.length_eq_one.mp hlen
  simp [elfByteFromReader, readOrIgnore, readExact, Bind.bind, Except.bind]

/-- C2 counterexample: the claim asserts decode(encode(x)) = x for every
value x of every primitive codec, but a class-32 address encodes by
truncating the stored 64-bit value to 32 bits: the value 2^32 encodes to
four zero bytes and decodes back to 0, not 2^32. -/
theorem claim_C2_counterexample :
    (elfAddressToWriter 1 1 4294967296 = .ok [0, 0, 0, 0])
  ∧ (elfAddressFromReader 1 1 ⟨[0, 0, 0, 0], 0⟩ ⟨none, none, []⟩ =
      .ok (0, ⟨[0, 0, 0, 0], 4⟩))
  ∧ ((0 : Nat) ≠ 4294967296) :=
  ⟨rfl, rfl, by omega⟩

/-- C2 amended: for all four valid class and encoding combinations and
every primitive codec type, decode(encode(x)) = x for every value x
representable at that codec's serialized width for the configured class
(for the 32-bit-class address and offset types this excludes values of
2^32 and above, whose truncation on encode is lossy by design), and
encode(decode(bytes)) = bytes for every byte sequence of the correct
fixed length.  Decoding is stated from a stream positioned at the start
of the byte sequence and consumes exactly the serialized width. -/
theorem claim_C2_amended (ec ed : Nat) (hec : ec = 1 ∨ ec = 2)
    (hed : ed = 1 ∨ ed = 2) (cfg : Config) :
    (∀ v : Nat, v < 2 ^ 8 → ∀ bs, elfByteToWriter v = .ok bs →
      elfByteFromReader ⟨bs, 0⟩ cfg = .ok (v, ⟨bs, 1⟩))
  ∧ (∀ bs : List Nat, bs.length = 1 → (∀ b ∈ bs, b < 256) →
      ∀ v r', elfByteFromReader ⟨bs, 0⟩ cfg = .ok (v, r') →
        elfByteToWriter v = .ok bs)
  ∧ (∀ v : Nat, v < 2 ^ 16 → ∀ bs, elfHalfWordToWriter ec ed v = .ok bs →
      elfHalfWordFromReader ec ed ⟨bs, 0⟩ cfg = .ok (v, ⟨bs, 2⟩))
  ∧ (∀ bs : List Nat, bs.length = 2 → (∀ b ∈ bs, b < 256) →
      ∀ v r', elfHalfWordFromReader ec ed ⟨bs, 0⟩ cfg = .ok (v, r') →
        elfHalfWordToWriter ec ed v = .ok bs)
  ∧ (∀ v : Nat, v < 2 ^ 32 → ∀ bs, elfWordToWriter ec ed v = .ok bs →
      elfWordFromReader ec ed ⟨bs, 0⟩ cfg = .ok (v, ⟨bs, 4⟩))
  ∧ (∀ bs : List Nat, bs.length = 4 → (∀ b ∈ bs, b < 256) →
      ∀ v r', elfWordFromReader ec ed ⟨bs, 0⟩ cfg = .ok (v, r') →
        elfWordToWriter ec ed v = .ok bs)
  ∧ (∀ v : Nat, v < 2 ^ 64 → ∀ bs,
      elfExtendedWordToWriter ec ed v = .ok bs →
      elfExtendedWordFromReader ec ed ⟨bs, 0⟩ cfg = .ok (v, ⟨bs, 8⟩))
  ∧ (∀ bs : List Nat, bs.length = 8 → (∀ b ∈ bs, b < 256) →
      ∀ v r', elfExtendedWordFromReader ec ed ⟨bs, 0⟩ cfg = .ok (v, r') →
        elfExtendedWordToWriter ec ed v = .ok bs)
  ∧ (∀ v : Nat, v < 2 ^ 16 → ∀ bs, elfSectionToWriter ec ed v = .ok bs →
      elfSectionFromReader ec ed ⟨bs, 0⟩ cfg = .ok (v, ⟨bs, 2⟩))
  ∧ (∀ bs : List Nat, bs.length = 2 → (∀ b ∈ bs, b < 256) →
      ∀ v r', elfSectionFromReader ec ed ⟨bs, 0⟩ cfg = .ok (v, r') →
        elfSectionToWriter ec ed v = .ok bs)
  ∧ (∀ v : Nat, v < 2 ^ 16 → ∀ bs,
      elfVersionSymbolToWriter ec ed v = .ok bs →
      elfVersionSymbolFromReader ec ed ⟨bs, 0⟩ cfg = .ok (v, ⟨bs, 2⟩))
  ∧ (∀ bs : List Nat, bs.length = 2 → (∀ b ∈ bs, b < 256) →
      ∀ v r', elfVersionSymbolFromReader ec ed ⟨bs, 0⟩ cfg = .ok (v, r') →
        elfVersionSymbolToWriter ec ed v = .ok bs)
  ∧ (∀ v : Int, -(2 ^ 31) ≤ v → v < 2 ^ 31 → ∀ bs,
      elfSignedWordToWriter ec ed v = .ok bs →
      elfSignedWordFromReader ec ed ⟨bs, 0⟩ cfg = .ok (v, ⟨bs, 4⟩))
  ∧ (∀ bs : List Nat, bs.length = 4 → (∀ b ∈ bs, b < 256) →
      ∀ v r', elfSignedWordFromReader ec ed ⟨bs, 0⟩ cfg = .ok (v, r') →
        elfSignedWordToWriter ec ed v = .ok bs)
  ∧ (∀ v : Int, -(2 ^ 63) ≤ v → v < 2 ^ 63 → ∀ bs,
      elfSignedExtendedWordToWriter ec ed v = .ok bs →
      elfSignedExtendedWordFromReader ec ed ⟨bs, 0⟩ cfg =
        .ok (v, ⟨bs, 8⟩))
  ∧ (∀ bs : List Nat, bs.length = 8 → (∀ b ∈ bs, b < 256) →
      ∀ v r', elfSignedExtendedWordFromReader ec ed ⟨bs, 0⟩ cfg =
          .ok (v, r') →
        elfSignedExtendedWordToWriter ec ed v = .ok bs)
  ∧ (∀ v : Nat, v < 2 ^ (8 * elfAddressSize ec) → ∀ bs,
      elfAddressToWriter ec ed v = .ok bs →
      elfAddressFromReader ec ed ⟨bs, 0⟩ cfg =
        .ok (v, ⟨bs, elfAddressSize ec⟩))
  ∧ (∀ bs : List Nat, bs.length = elfAddressSize ec →
      (∀ b ∈ bs, b < 256) →
      ∀ v r', elfAddressFromReader ec ed ⟨bs, 0⟩ cfg = .ok (v, r') →
        elfAddressToWriter ec ed v = .ok bs)
  ∧ (∀ v : Nat, v < 2 ^ (8 * elfAddressSize ec) → ∀ bs,
      elfOffsetToWriter ec ed v = .ok bs →
      elfOffsetFromReader ec ed ⟨bs, 0⟩ cfg =
        .ok (v, ⟨bs, elfAddressSize ec⟩))
  ∧ (∀ bs : List Nat, bs.length = elfAddressSize ec →
      (∀ b ∈ bs, b < 256) →
      ∀ v r', elfOffsetFromReader ec ed ⟨bs, 0⟩ cfg = .ok (v, r') →
        elfOffsetToWriter ec ed v = .ok bs) := by
  have h16 : (2 : Nat) ^ 16 = 256 ^ 2 := by norm_num
  have h32 : (2 : Nat) ^ 32 = 256 ^ 4 := by norm_num
  have h64 : (2 : Nat) ^ 64 = 256 ^ 8 := by norm_num
  have haddr : (2 : Nat) ^ (8 * elfAddressSize ec) =
      256 ^ elfAddressSize ec := by rw [pow_mul]; norm_num
  have byteRt1 : ∀ v : Nat, v < 2 ^ 8 → ∀ bs, elfByteToWriter v = .ok bs →
      elfByteFromReader ⟨bs, 0⟩ cfg = .ok (v, ⟨bs, 1⟩) := by
    intro v hv bs henc
    simp only [elfByteToWriter, leBytes, Except.ok.injEq] at henc
    norm_num at hv
    rw [Nat.mod_eq_of_lt hv] at henc
    subst henc
    simp [elfByte_dec]
  have byteRt2 : ∀ bs : List Nat, bs.length = 1 → (∀ b ∈ bs, b < 256) →
      ∀ v r', elfByteFromReader ⟨bs, 0⟩ cfg = .ok (v, r') →
        elfByteToWriter v = .ok bs := by
    intro bs hlen hb v r' hdec
    obtain ⟨b, rfl⟩ := List.length_eq_one.mp hlen
    rw [elfByte_dec [b] cfg rfl] at hdec
    simp only [Except.ok.injEq, Prod.mk.injEq, List.headD] at hdec
    obtain ⟨hv, -⟩ := hdec
    subst hv
    simp [elfByteToWriter, leBytes,
      Nat.mod_eq_of_lt (hb b (by simp))]
  refine ⟨byteRt1, byteRt2, ?_, ?_, ?_, ?_, ?_, ?_, ?_, ?_, ?_, ?_, ?_,
    ?_, ?_, ?_, ?_, ?_, ?_, ?_⟩
  · intro v hv bs henc
    exact fixedWidth_rt1 2 ec ed v hec hed (h16 ▸ hv) cfg bs henc
  · intro bs hlen hb v r' hdec
    exact fixedWidth_rt2 2 ec ed hec hed bs cfg v r' hlen hb hdec
  · intro v hv bs henc
    exact fixedWidth_rt1 4 ec ed v hec hed (h32 ▸ hv) cfg bs henc
  · intro bs hlen hb v r' hdec
    exact fixedWidth_rt2 4 ec ed hec hed bs cfg v r' hlen hb hdec
  · intro v hv bs henc
    exact fixedWidth_rt1 8 ec ed v hec hed (h64 ▸ hv) cfg bs henc
  · intro bs hlen hb v r' hdec
    exact fixedWidth_rt2 8 ec ed hec hed bs cfg v r' hlen hb hdec
  · intro v hv bs henc
    exact fixedWidth_rt1 2 ec ed v hec hed (h16 ▸ hv) cfg bs henc
  · intro bs hlen hb v r' hdec
    exact fixedWidth_rt2 2 ec ed hec hed bs cfg v r' hlen hb hdec
  · intro v hv bs henc
    exact fixedWidth_rt1 2 ec ed v hec hed (h16 ▸ hv) cfg bs henc
  · intro bs hlen hb v r' hdec
    exact fixedWidth_rt2 2 ec ed hec hed bs cfg v r' hlen hb hdec
  · intro v h1 h2 bs henc
    have hlt : toUnsigned v 32 < 256 ^ 4 := h32 ▸ toUnsigned_lt_32 v
    have hdec := fixedWidth_rt1 4 ec ed (toUnsigned v 32) hec hed hlt
      cfg bs henc
    simp only [elfSignedWordFromReader, Bind.bind, Except.bind, hdec]
    rw [toSigned_toUnsigned_32 v h1 h2]
  · intro bs hlen hb v r' hdec
    have hu : leValue bs < 2 ^ 32 := by
      rw [h32, ← hlen]; exact leValue_lt bs hb
    have hu' : beValue bs < 2 ^ 32 := by
      rw [h32, ← hlen]; exact beValue_lt bs hb
    rcases hed with rfl | rfl
    · rw [show elfSignedWordFromReader ec 1 ⟨bs, 0⟩ cfg =
          (do
            let x ← fixedWidthFromReader 4 ec 1 ⟨bs, 0⟩ cfg
            Except.ok (toSigned x.1 32, x.2)) from rfl,
        fixedWidth_dec_le 4 ec hec bs cfg hlen] at hdec
      simp only [Bind.bind, Except.bind, Except.ok.injEq,
        Prod.mk.injEq] at hdec
      obtain ⟨hv, -⟩ := hdec
      show fixedWidthToWriter 4 ec 1 (toUnsigned v 32) = .ok bs
      rw [← hv, toUnsigned_toSigned_32 _ hu, fixedWidth_enc_le _ _ _ hec,
        ← hlen, leBytes_leValue bs hb]
    · rw [show elfSignedWordFromReader ec 2 ⟨bs, 0⟩ cfg =
          (do
            let x ← fixedWidthFromReader 4 ec 2 ⟨bs, 0⟩ cfg
            Except.ok (toSigned x.1 32, x.2)) from rfl,
        fixedWidth_dec_be 4 ec hec bs cfg hlen] at hdec
      simp only [Bind.bind, Except.bind, Except.ok.injEq,
        Prod.mk.injEq] at hdec
      obtain ⟨hv, -⟩ := hdec
      show fixedWidthToWriter 4 ec 2 (toUnsigned v 32) = .ok bs
      rw [← hv, toUnsigned_toSigned_32 _ hu', fixedWidth_enc_be _ _ _ hec,
        ← hlen, beBytes_beValue bs hb]
  · intro v h1 h2 bs henc
    have hlt : toUnsigned v 64 < 256 ^ 8 := h64 ▸ toUnsigned_lt_64 v
    have hdec := fixedWidth_rt1 8 ec ed (toUnsigned v 64) hec hed hlt
      cfg bs henc
    simp only [elfSignedExtendedWordFromReader, Bind.bind, Except.bind,
      hdec]
    rw [toSigned_toUnsigned_64 v h1 h2]
  · intro bs hlen hb v r' hdec
    have hu : leValue bs < 2 ^ 64 := by
      rw [h64, ← hlen]; exact leValue_lt bs hb
    have hu' : beValue bs < 2 ^ 64 := by
      rw [h64, ← hlen]; exact beValue_lt bs hb
    rcases hed with rfl | rfl
    · rw [show elfSignedExtendedWordFromReader ec 1 ⟨bs, 0⟩ cfg =
          (do
            let x ← fixedWidthFromReader 8 ec 1 ⟨bs, 0⟩ cfg
            Except.ok (toSigned x.1 64, x.2)) from rfl,
        fixedWidth_dec_le 8 ec hec bs cfg hlen] at hdec
      simp only [Bind.bind, Except.bind, Except.ok.injEq,
        Prod.mk.injEq] at hdec
      obtain ⟨hv, -⟩ := hdec
      show fixedWidthToWriter 8 ec 1 (toUnsigned v 64) = .ok bs
      rw [← hv, toUnsigned_toSigned_64 _ hu, fixedWidth_enc_le _ _ _ hec,
        ← hlen, leBytes_leValue bs hb]
    · rw [show elfSignedExtendedWordFromReader ec 2 ⟨bs, 0⟩ cfg =
          (do
            let x ← fixedWidthFromReader 8 ec 2 ⟨bs, 0⟩ cfg
            Except.ok (toSigned x.1 64, x.2)) from rfl,
        fixedWidth_dec_be 8 ec hec bs cfg hlen] at hdec
      simp only [Bind.bind, Except.bind, Except.ok.injEq,
        Prod.mk.injEq] at hdec
      obtain ⟨hv, -⟩ := hdec
      show fixedWidthToWriter 8 ec 2 (toUnsigned v 64) = .ok bs
      rw [← hv, toUnsigned_toSigned_64 _ hu', fixedWidth_enc_be _ _ _ hec,
        ← hlen, beBytes_beValue bs hb]
  · intro v hv bs henc
    rw [elfAddressToWriter_eq_fixedWidth ec ed v hec hed] at henc
    rw [elfAddressFromReader_eq_fixedWidth ec ed hec hed]
    exact fixedWidth_rt1 _ ec ed v hec hed (haddr ▸ hv) cfg bs henc
  · intro bs hlen hb v r' hdec
    rw [elfAddressFromReader_eq_fixedWidth ec ed hec hed] at hdec
    rw [elfAddressToWriter_eq_fixedWidth ec ed v hec hed]
    exact fixedWidth_rt2 _ ec ed hec hed bs cfg v r' hlen hb hdec
  · intro v hv bs henc
    rw [show elfOffsetToWriter ec ed v = elfAddressToWriter ec ed v
        from rfl, elfAddressToWriter_eq_fixedWidth ec ed v hec hed]
      at henc
    rw [show elfOffsetFromReader ec ed ⟨bs, 0⟩ cfg =
        elfAddressFromReader ec ed ⟨bs, 0⟩ cfg from rfl,
      elfAddressFromReader_eq_fixedWidth ec ed hec hed]
    exact fixedWidth_rt1 _ ec ed v hec hed (haddr ▸ hv) cfg bs henc
  · intro bs hlen hb v r' hdec
    rw [show elfOffsetFromReader ec ed ⟨bs, 0⟩ cfg =
        elfAddressFromReader ec ed ⟨bs, 0⟩ cfg from rfl,
      elfAddressFromReader_eq_fixedWidth ec ed hec hed] at hdec
    rw [show elfOffsetToWriter ec ed v = elfAddressToWriter ec ed v
        from rfl, elfAddressToWriter_eq_fixedWidth ec ed v hec hed]
    exact fixedWidth_rt2 _ ec ed hec hed bs cfg v r' hlen hb hdec

/-- C2 amended witness: a half-word roundtrip at a concrete value,
obtained from the amended theorem: 0xabcd encodes little-endian class 32
to the bytes 0xcd, 0xab, which decode back to 0xabcd. -/
theorem claim_C2_amended_witness :
    elfHalfWordFromReader 1 1 ⟨[0xcd, 0xab], 0⟩ ⟨none, none, []⟩ =
      .ok (0xabcd, ⟨[0xcd, 0xab], 2⟩) :=
  (claim_C2_amended 1 1 (Or.inl rfl) (Or.inl rfl)
      ⟨none, none, []⟩).2.2.1 0xabcd (by norm_num) [0xcd, 0xab] rfl

/-! Claims C7 and C8: header flag sets. -/

theorem ite_append_forall {α : Type} {P : α → Prop} (c : Prop)
    [Decidable c] {L : List α} {x : α} (hL : ∀ f ∈ L, P f) (hx : P x) :
    ∀ f ∈ (if c then L ++ [x] else L), P f := by
  split
  · intro f hf
    rcases List.mem_append.mp hf with h | h
    · exact hL f h
    · rw [List.mem_singleton.mp h]; exact hx
  · exact hL

theorem except_bind_ok {ε α β : Type} {x : Except ε α}
    {f : α → Except ε β} {y : β} (h : x >>= f = .ok y) :
    ∃ a, x = .ok a ∧ f a = .ok y := by
  cases x with
  | ok a => exact ⟨a, rfl, h⟩
  | error e => exact absurd h (by simp [Bind.bind, Except.bind])

theorem mipsBaseFlags_not_composite (v : Nat) :
    ∀ f ∈ mipsBaseFlags v, f.isComposite = false := by
  unfold mipsBaseFlags
  repeat' apply ite_append_forall
  all_goals simp [FlagMIPS.isComposite]

theorem pariscBaseFlags_not_composite (v : Nat) :
    ∀ f ∈ pariscBaseFlags v, f.isComposite = false := by
  unfold pariscBaseFlags
  repeat' apply ite_append_forall
  all_goals simp [FlagPARISC.isComposite]

/-- Structural inversion of a successful MIPS header-flags decode: the
retained raw word is the input word and the flag sequence is the base
flags followed by composite flags only. -/
theorem exists_composite_tail_append {α : Type} {isC : α → Bool}
    {B L : List α} (x : α) (hx : isC x = true)
    (hL : ∃ cs, L = B ++ cs ∧ ∀ f ∈ cs, isC f = true) :
    ∃ cs, L ++ [x] = B ++ cs ∧ ∀ f ∈ cs, isC f = true := by
  obtain ⟨cs, rfl, hcs⟩ := hL
  refine ⟨cs ++ [x], by simp, ?_⟩
  intro f hf
  rcases List.mem_append.mp hf with hf | hf
  · exact hcs f hf
  · rw [List.mem_singleton.mp hf]; exact hx

theorem exists_composite_tail_nil {α : Type} {isC : α → Bool}
    (B : List α) : ∃ cs, B = B ++ cs ∧ ∀ f ∈ cs, isC f = true :=
  ⟨[], by simp, by simp⟩

/-- Structural inversion of a successful MIPS header-flags decode: the
retained raw word is the input word and the flag sequence is the base
single-bit flags followed by composite flags only. -/
theorem mipsArchStep_ok {w : Nat} {cfg : Config} {B L : List FlagMIPS}
    (h : mipsArchStep w cfg B = .ok L) :
    ∃ cs, L = B ++ cs ∧ ∀ f ∈ cs, f.isComposite = true := by
  unfold mipsArchStep at h
  split at h
  · split at h
    · rename_i a _
      injection h with h
      exact ⟨[FlagMIPS.architecture a], h.symm,
        by simp [FlagMIPS.isComposite]⟩
    · exact absurd h (by simp)
  · injection h with h
    exact ⟨[], by simp [← h], by simp⟩

theorem mipsExtStep_ok {w : Nat} {cfg : Config} {B L : List FlagMIPS}
    (h : mipsExtStep w cfg B = .ok L) :
    ∃ cs, L = B ++ cs ∧ ∀ f ∈ cs, f.isComposite = true := by
  unfold mipsExtStep at h
  split at h
  · split at h
    · rename_i e _
      injection h with h
      exact ⟨[FlagMIPS.extension e], h.symm,
        by simp [FlagMIPS.isComposite]⟩
    · exact absurd h (by simp)
  · injection h with h
    exact ⟨[], by simp [← h], by simp⟩

theorem mipsAbiStep_ok {w : Nat} {cfg : Config} {B L : List FlagMIPS}
    (h : mipsAbiStep w cfg B = .ok L) :
    ∃ cs, L = B ++ cs ∧ ∀ f ∈ cs, f.isComposite = true := by
  unfold mipsAbiStep at h
  split at h
  · split at h
    · rename_i a _
      injection h with h
      exact ⟨[FlagMIPS.abi a], h.symm, by simp [FlagMIPS.isComposite]⟩
    · exact absurd h (by simp)
  · injection h with h
    exact ⟨[], by simp [← h], by simp⟩

theorem mipsMachineStep_ok {w : Nat} {cfg : Config} {B L : List FlagMIPS}
    (h : mipsMachineStep w cfg B = .ok L) :
    ∃ cs, L = B ++ cs ∧ ∀ f ∈ cs, f.isComposite = true := by
  unfold mipsMachineStep at h
  split at h
  · split at h
    · rename_i m _
      injection h with h
      exact ⟨[FlagMIPS.machine m], h.symm,
        by simp [FlagMIPS.isComposite]⟩
    · exact absurd h (by simp)
  · injection h with h
    exact ⟨[], by simp [← h], by simp⟩

/-- Structural inversion of a successful MIPS header-flags decode: the
retained raw word is the input word and the flag sequence is the base
single-bit flags followed by composite flags only. -/
theorem flagsMIPS_ok_struct (w : Nat) (cfg : Config) (fs : FlagsMIPS)
    (h : flagsMIPSTryFromWith w cfg = .ok fs) :
    fs.value = w ∧ ∃ cs, fs.flags = mipsBaseFlags w ++ cs
      ∧ ∀ f ∈ cs, f.isComposite = true := by
  unfold flagsMIPSTryFromWith at h
  split at h
  · exact absurd h (by simp)
  · rename_i L1 h1
    split at h
    · exact absurd h (by simp)
    · rename_i L2 h2
      split at h
      · exact absurd h (by simp)
      · rename_i L3 h3
        split at h
        · exact absurd h (by simp)
        · rename_i L4 h4
          injection h with h
          subst h
          obtain ⟨c1, e1, p1⟩ := mipsArchStep_ok h1
          obtain ⟨c2, e2, p2⟩ := mipsExtStep_ok h2
          obtain ⟨c3, e3, p3⟩ := mipsAbiStep_ok h3
          obtain ⟨c4, e4, p4⟩ := mipsMachineStep_ok h4
          refine ⟨rfl, c1 ++ c2 ++ c3 ++ c4, ?_, ?_⟩
          · show L4 = _
            rw [e4, e3, e2, e1]
            simp [List.append_assoc]
          · intro f hf
            simp only [List.mem_append] at hf
            rcases hf with ((hf | hf) | hf) | hf
            · exact p1 f hf
            · exact p2 f hf
            · exact p3 f hf
            · exact p4 f hf

theorem pariscVersionStep_ok {w : Nat} {cfg : Config}
    {B L : List FlagPARISC} (h : pariscVersionStep w cfg B = .ok L) :
    ∃ cs, L = B ++ cs ∧ ∀ f ∈ cs, f.isComposite = true := by
  unfold pariscVersionStep at h
  split at h
  · split at h
    · rename_i a _
      injection h with h
      exact ⟨[FlagPARISC.architectureVersion a], h.symm,
        by simp [FlagPARISC.isComposite]⟩
    · exact absurd h (by simp)
  · injection h with h
    exact ⟨[], by simp [← h], by simp⟩

/-- Structural inversion of a successful PA-RISC header-flags decode. -/
theorem flagsPARISC_ok_struct (w : Nat) (cfg : Config) (fs : FlagsPARISC)
    (h : flagsPARISCTryFromWith w cfg = .ok fs) :
    fs.value = w ∧ ∃ cs, fs.flags = pariscBaseFlags w ++ cs
      ∧ ∀ f ∈ cs, f.isComposite = true := by
  unfold flagsPARISCTryFromWith at h
  split at h
  · exact absurd h (by simp)
  · rename_i L1 h1
    injection h with h
    subst h
    exact ⟨rfl, pariscVersionStep_ok h1⟩

/-- Structural inversion of the (infallible) ARM32 header-flags decode:
the retained raw word is the input word and the flag sequence is the two
masked composite sub-fields followed by base single-bit flags only. -/
theorem flagsARM32_ok_struct (w : Nat) (cfg : Config) (fs : FlagsARM32)
    (h : flagsARM32TryFromWith w cfg = .ok fs) :
    fs.value = w
  ∧ ∃ bs, fs.flags = [FlagARM32.abiVersion ((w &&& 0xff000000) >>> 24),
      FlagARM32.gcc (w &&& 0x00400fff)] ++ bs
    ∧ ∀ f ∈ bs, f.isComposite = false := by
  unfold flagsARM32TryFromWith at h
  split at h <;> split at h <;> split at h <;>
    (injection h with h; subst h) <;>
    exact ⟨rfl, _, (List.take_append_drop 2 _).symm,
      by simp [FlagARM32.isComposite]⟩

/-- C7: for every architecture header-flag set (ARM32, MIPS, PA-RISC)
successfully decoded from a raw flags word w, the decoded set retains w
and encoding it writes back exactly the original raw word w (the encoder
serializes the retained word, never a reconstruction from the decoded
flag sequence). -/
theorem claim_C7_encode_raw_word (ec ed w : Nat) (cfg : Config) :
    (∀ fs, flagsARM32TryFromWith w cfg = .ok fs →
      fs.value = w ∧ flagsARM32ToWriter ec ed fs = elfWordToWriter ec ed w)
  ∧ (∀ fs, flagsMIPSTryFromWith w cfg = .ok fs →
      fs.value = w ∧ flagsMIPSToWriter ec ed fs = elfWordToWriter ec ed w)
  ∧ (∀ fs, flagsPARISCTryFromWith w cfg = .ok fs →
      fs.value = w
        ∧ flagsPARISCToWriter ec ed fs = elfWordToWriter ec ed w) := by
  refine ⟨?_, ?_, ?_⟩
  · intro fs h
    have hv := (flagsARM32_ok_struct w cfg fs h).1
    exact ⟨hv, by rw [show flagsARM32ToWriter ec ed fs =
      elfWordToWriter ec ed fs.value from rfl, hv]⟩
  · intro fs h
    have hv := (flagsMIPS_ok_struct w cfg fs h).1
    exact ⟨hv, by rw [show flagsMIPSToWriter ec ed fs =
      elfWordToWriter ec ed fs.value from rfl, hv]⟩
  · intro fs h
    have hv := (flagsPARISC_ok_struct w cfg fs h).1
    exact ⟨hv, by rw [show flagsPARISCToWriter ec ed fs =
      elfWordToWriter ec ed fs.value from rfl, hv]⟩

/-- C7 witness: the MIPS flags word 0x10000003 decodes to NoReorder, Pic
and Architecture(Mips2) and re-encodes to exactly the original word,
obtained from the roundtrip theorem at a concrete input. -/
theorem claim_C7_encode_raw_word_witness :
    (⟨[FlagMIPS.noReorder, FlagMIPS.pic,
        FlagMIPS.architecture .mips2], 0x10000003⟩ : FlagsMIPS).value =
      0x10000003
  ∧ flagsMIPSToWriter 1 1 ⟨[FlagMIPS.noReorder, FlagMIPS.pic,
        FlagMIPS.architecture .mips2], 0x10000003⟩ =
      elfWordToWriter 1 1 0x10000003 :=
  (claim_C7_encode_raw_word 1 1 0x10000003 ⟨none, none, []⟩).2.1 _ rfl

/-- C8 counterexample: the ARM32 flag decoder emits the two masked
composite sub-fields (AbiVersion, Gcc) before the single-bit base
flags: for the word 0x200 the base flag FloatSoft appears last, after
both composites, contradicting the claim that base single-bit flags
appear before any masked composite variants for ARM32. -/
theorem claim_C8_counterexample :
    flagsARM32TryFromWith 0x200 ⟨none, none, []⟩ =
      .ok ⟨[FlagARM32.abiVersion 0, FlagARM32.gcc 0x200,
        FlagARM32.floatSoft], 0x200⟩
  ∧ FlagARM32.isComposite (FlagARM32.abiVersion 0) = true
  ∧ FlagARM32.isComposite FlagARM32.floatSoft = false :=
  ⟨rfl, rfl, rfl⟩

/-- C8 amended: for the MIPS and PA-RISC flag decoders, every
successfully decoded flag sequence is a block of single-bit base flags
followed by a block of masked composite sub-field variants; for the
ARM32 decoder the order is reversed: the two masked composite sub-fields
(AbiVersion, Gcc) come first, followed by the single-bit base flags. -/
theorem claim_C8_base_before_composite (w : Nat) (cfg : Config) :
    (∀ fs, flagsMIPSTryFromWith w cfg = .ok fs →
      ∃ bs cs, fs.flags = bs ++ cs ∧ (∀ f ∈ bs, f.isComposite = false)
        ∧ ∀ f ∈ cs, f.isComposite = true)
  ∧ (∀ fs, flagsPARISCTryFromWith w cfg = .ok fs →
      ∃ bs cs, fs.flags = bs ++ cs ∧ (∀ f ∈ bs, f.isComposite = false)
        ∧ ∀ f ∈ cs, f.isComposite = true)
  ∧ (∀ fs, flagsARM32TryFromWith w cfg = .ok fs →
      ∃ cs bs, fs.flags = cs ++ bs ∧ (∀ f ∈ cs, f.isComposite = true)
        ∧ ∀ f ∈ bs, f.isComposite = false) := by
  refine ⟨?_, ?_, ?_⟩
  · intro fs h
    obtain ⟨-, cs, hflags, hcs⟩ := flagsMIPS_ok_struct w cfg fs h
    exact ⟨mipsBaseFlags w, cs, hflags,
      mipsBaseFlags_not_composite w, hcs⟩
  · intro fs h
    obtain ⟨-, cs, hflags, hcs⟩ := flagsPARISC_ok_struct w cfg fs h
    exact ⟨pariscBaseFlags w, cs, hflags,
      pariscBaseFlags_not_composite w, hcs⟩
  · intro fs h
    obtain ⟨-, bs, hflags, hbs⟩ := flagsARM32_ok_struct w cfg fs h
    exact ⟨[FlagARM32.abiVersion ((w &&& 0xff000000) >>> 24),
      FlagARM32.gcc (w &&& 0x00400fff)], bs, hflags,
      by simp [FlagARM32.isComposite], hbs⟩

/-- C8 witness: the decomposition at the concrete MIPS word 0x10000003,
obtained from the ordering theorem. -/
theorem claim_C8_base_before_composite_witness :
    ∃ bs cs,
      (⟨[FlagMIPS.noReorder, FlagMIPS.pic,
          FlagMIPS.architecture .mips2], 0x10000003⟩ : FlagsMIPS).flags =
        bs ++ cs
      ∧ (∀ f ∈ bs, f.isComposite = false)
      ∧ ∀ f ∈ cs, f.isComposite = true :=
  (claim_C8_base_before_composite 0x10000003 ⟨none, none, []⟩).1 _ rfl

/-! Claims C5 and C6: the ELF header decode. -/

/-- C5 counterexample: decoding a complete, minimal class-32
little-endian header whose entry point, program-header offset and
section-header offset bytes are all literally zero succeeds with all
three optional fields present as Some 0 — not absent, as the claim
requires for zero on-disk values.  Absence arises only from a caught
decode failure. -/
theorem claim_C5_counterexample :
    elfHeaderFromReader 1 1
      ⟨[0x7f, 0x45, 0x4c, 0x46, 1, 1, 1, 0, 0, 0, 0, 0, 0, 0, 0, 0,
        2, 0, 0x3e, 0, 1, 0, 0, 0,
        0, 0, 0, 0, 0, 0, 0, 0, 0, 0, 0, 0,
        0, 0, 0, 0, 52, 0, 0, 0, 0, 0, 0, 0, 0, 0, 0, 0], 0⟩
      ⟨none, none, []⟩ =
    .ok (⟨⟨[0x7f, 0x45, 0x4c, 0x46], .elf32, .littleEndian, .current,
        0, 0, [0, 0, 0, 0, 0, 0, 0]⟩,
      .executable, 0x3e, .current, some 0, some 0, some 0, 0, 52,
      0, 0, 0, 0, 0, []⟩,
      ⟨[0x7f, 0x45, 0x4c, 0x46, 1, 1, 1, 0, 0, 0, 0, 0, 0, 0, 0, 0,
        2, 0, 0x3e, 0, 1, 0, 0, 0,
        0, 0, 0, 0, 0, 0, 0, 0, 0, 0, 0, 0,
        0, 0, 0, 0, 52, 0, 0, 0, 0, 0, 0, 0, 0, 0, 0, 0], 52⟩,
      ⟨none, none, []⟩) := by
  rfl

/-- C6 counterexample: decoding a complete class-32 little-endian header
whose machine field is 0x3e succeeds, yet the configuration returned
still has machine = none: the decoded machine value is never written
into the shared configuration, so downstream consumers of config.machine
do not observe the machine of the header just decoded. -/
theorem claim_C6_counterexample :
    ∃ hd r2 cfg2,
      elfHeaderFromReader 1 1 ⟨sampleBytes32, 0⟩ ⟨none, none, []⟩ =
        .ok (hd, r2, cfg2)
      ∧ hd.machine = 0x3e ∧ cfg2.machine = none
      ∧ cfg2.machine ≠ some hd.machine :=
  ⟨sampleHeader32, ⟨sampleBytes32, 52⟩, ⟨none, none, []⟩,
    rfl, rfl, rfl, by decide⟩

/-- C6 amended: decoding an ELF header never modifies the configuration
at all — the configuration returned from a successful decode is exactly
the one passed in; in particular the decoded machine field is not
recorded in config.machine. -/
theorem claim_C6_amended (ec ed : Nat) (r0 : Reader) (cfg : Config)
    (h : ElfHeader) (rf : Reader) (cfg' : Config)
    (hdec : elfHeaderFromReader ec ed r0 cfg = .ok (h, rf, cfg')) :
    cfg' = cfg := by
  unfold elfHeaderFromReader at hdec
  repeat' split at hdec
  all_goals injection hdec
  all_goals rename_i hp
  all_goals exact (congrArg (fun t => t.2.2) hp).symm

/-- C6 amended, instantiated: decoding the concrete sample header leaves
the empty configuration unchanged. -/
theorem claim_C6_amended_witness :
    (⟨none, none, []⟩ : Config) = ⟨none, none, []⟩ :=
  claim_C6_amended 1 1 ⟨sampleBytes32, 0⟩ ⟨none, none, []⟩
    sampleHeader32 ⟨sampleBytes32, 52⟩ ⟨none, none, []⟩ rfl

/-! Inversion lemmas for the optional-field step. -/

theorem optionalFromReader_fst_none (res : Except ElfError (Nat × Reader))
    (r : Reader) :
    (optionalFromReader res r).1 = none ↔ ∃ e, res = .error e := by
  cases res with
  | error e => cases e <;> simp [optionalFromReader]
  | ok p =>
    obtain ⟨v, r'⟩ := p
    simp [optionalFromReader]

theorem optionalFromReader_fst_some (res : Except ElfError (Nat × Reader))
    (r : Reader) (v : Nat) :
    (optionalFromReader res r).1 = some v ↔ ∃ r', res = .ok (v, r') := by
  cases res with
  | error e => cases e <;> simp [optionalFromReader]
  | ok p =>
    obtain ⟨w, r'⟩ := p
    simp [optionalFromReader, eq_comm]

/-- C5 amended: for every successful ELF header decode there are
intermediate reader states at which the three optional fields were read,
and each of entry point, program-header offset and section-header offset
is absent exactly when the corresponding primitive read from that state
failed (the failure being caught and turned into absence); when the
field is present, its value is exactly the value the primitive read
produced — in particular a literally zero on-disk word yields Some 0,
not None. -/
theorem claim_C5_amended (ec ed : Nat) (r0 : Reader) (cfg : Config)
    (h : ElfHeader) (rf : Reader) (cfg' : Config)
    (hdec : elfHeaderFromReader ec ed r0 cfg = .ok (h, rf, cfg')) :
    ∃ rA rB rC : Reader,
      ((h.entrypoint = none ↔
          ∃ e, elfAddressFromReader ec ed rA cfg = .error e)
        ∧ ∀ v, h.entrypoint = some v →
          ∃ r', elfAddressFromReader ec ed rA cfg = .ok (v, r'))
      ∧ ((h.programHeaderOffset = none ↔
          ∃ e, elfOffsetFromReader ec ed rB cfg = .error e)
        ∧ ∀ v, h.programHeaderOffset = some v →
          ∃ r', elfOffsetFromReader ec ed rB cfg = .ok (v, r'))
      ∧ ((h.sectionHeaderOffset = none ↔
          ∃ e, elfOffsetFromReader ec ed rC cfg = .error e)
        ∧ ∀ v, h.sectionHeaderOffset = some v →
          ∃ r', elfOffsetFromReader ec ed rC cfg = .ok (v, r')) := by
  unfold elfHeaderFromReader at hdec
  split at hdec
  · injection hdec
  split at hdec
  · injection hdec
  split at hdec
  · injection hdec
  split at hdec
  · injection hdec
  rename_i xv vv rA hq4
  split at hdec
  rename_i xA entv rB hqA
  split at hdec
  rename_i xB phv rC hqB
  split at hdec
  rename_i xC shv r7 hqC
  split at hdec
  · injection hdec
  split at hdec
  · injection hdec
  split at hdec
  · injection hdec
  split at hdec
  · injection hdec
  split at hdec
  · injection hdec
  split at hdec
  · injection hdec
  split at hdec
  · injection hdec
  split at hdec
  · injection hdec
  injection hdec with hp
  injection hp with h1 h2
  subst h1
  have eA : (optionalFromReader (elfAddressFromReader ec ed rA cfg) rA).1
      = entv := by rw [hqA]
  have eB : (optionalFromReader (elfOffsetFromReader ec ed rB cfg) rB).1
      = phv := by rw [hqB]
  have eC : (optionalFromReader (elfOffsetFromReader ec ed rC cfg) rC).1
      = shv := by rw [hqC]
  refine ⟨rA, rB, rC, ⟨?_, ?_⟩, ⟨?_, ?_⟩, ⟨?_, ?_⟩⟩
  · show entv = none ↔ _
    rw [← eA]; exact optionalFromReader_fst_none _ _
  · intro v hv
    exact (optionalFromReader_fst_some _ _ _).mp (eA.trans hv)
  · show phv = none ↔ _
    rw [← eB]; exact optionalFromReader_fst_none _ _
  · intro v hv
    exact (optionalFromReader_fst_some _ _ _).mp (eB.trans hv)
  · show shv = none ↔ _
    rw [← eC]; exact optionalFromReader_fst_none _ _
  · intro v hv
    exact (optionalFromReader_fst_some _ _ _).mp (eC.trans hv)

/-- C5 amended, instantiated at the concrete sample header, whose three
optional fields all decode from zero words to Some 0. -/
theorem claim_C5_amended_witness :
    ∃ rA rB rC : Reader,
      ((sampleHeader32.entrypoint = none ↔
          ∃ e, elfAddressFromReader 1 1 rA ⟨none, none, []⟩ = .error e)
        ∧ ∀ v, sampleHeader32.entrypoint = some v →
          ∃ r', elfAddressFromReader 1 1 rA ⟨none, none, []⟩ = .ok (v, r'))
      ∧ ((sampleHeader32.programHeaderOffset = none ↔
          ∃ e, elfOffsetFromReader 1 1 rB ⟨none, none, []⟩ = .error e)
        ∧ ∀ v, sampleHeader32.programHeaderOffset = some v →
          ∃ r', elfOffsetFromReader 1 1 rB ⟨none, none, []⟩ = .ok (v, r'))
      ∧ ((sampleHeader32.sectionHeaderOffset = none ↔
          ∃ e, elfOffsetFromReader 1 1 rC ⟨none, none, []⟩ = .error e)
        ∧ ∀ v, sampleHeader32.sectionHeaderOffset = some v →
          ∃ r', elfOffsetFromReader 1 1 rC ⟨none, none, []⟩ = .ok (v, r')) :=
  claim_C5_amended 1 1 ⟨sampleBytes32, 0⟩ ⟨none, none, []⟩
    sampleHeader32 ⟨sampleBytes32, 52⟩ ⟨none, none, []⟩ rfl

/-! Claim C10: the encoder writes only the fixed-size fields. -/

theorem readDataTail_length (n : Nat) (r : Reader) (cfg : Config)
    (bs : List Nat) (r' : Reader)
    (h : readDataTail n r cfg = .ok (bs, r')) : bs.length = n := by
  induction n generalizing r bs r' with
  | zero =>
    simp [readDataTail] at h
    simp [← h.1]
  | succ n ih =>
    unfold readDataTail at h
    cases hb : elfByteFromReader r cfg with
    | error e => rw [hb] at h; simp [Bind.bind, Except.bind] at h
    | ok p =>
      obtain ⟨b, r1⟩ := p
      rw [hb] at h
      simp only [Bind.bind, Except.bind] at h
      cases ht : readDataTail n r1 cfg with
      | error e => rw [ht] at h; simp at h
      | ok q =>
        obtain ⟨bs1, r2⟩ := q
        rw [ht] at h
        simp at h
        rw [← h.1]
        simp [ih _ _ _ ht]

/-- C10: the ELF header encoder writes exactly the fixed-field byte
total for the class — 52 bytes for class 32, 64 for class 64 — and never
the data tail; a successful decode stores header_size minus the fixed
total as the data tail, so an input whose header-size field exceeds the
fixed total decodes to a header carrying a nonempty tail whose
re-encoding is strictly shorter than, and different from, the input, as
the concrete 53-byte sample shows. -/
theorem claim_C10 :
    (∀ ec ed (h : ElfHeader) (bs : List Nat),
      (ec = 1 ∨ ec = 2) → (ed = 1 ∨ ed = 2) →
      h.identifier.magic.length = 4 → h.identifier.pad.length = 7 →
      elfHeaderToWriter ec ed h = .ok bs → bs.length = elfHeaderSize ec)
    ∧ (∀ ec ed r cfg (h : ElfHeader) (rf : Reader) (cfg' : Config),
        elfHeaderFromReader ec ed r cfg = .ok (h, rf, cfg') →
        h.data.length = h.headerSize - elfHeaderSize ec)
    ∧ (elfHeaderFromReader 1 1 ⟨sampleTailBytes, 0⟩ ⟨none, none, []⟩ =
        .ok (sampleTailHeader, ⟨sampleTailBytes, 53⟩, ⟨none, none, []⟩)
      ∧ ∃ out, elfHeaderToWriter 1 1 sampleTailHeader = .ok out
          ∧ out.length = 52 ∧ out ≠ sampleTailBytes) := by
  refine ⟨?_, ?_, ?_, ?_⟩
  · intro ec ed h bs hec hed hmagic hpad henc
    rcases hec with rfl | rfl <;> rcases hed with rfl | rfl <;>
    · simp [elfHeaderToWriter, elfHeaderIdentifierToWriter,
        elfHalfWordToWriter, elfWordToWriter, elfAddressToWriter,
        elfOffsetToWriter, fixedWidthToWriter, ElfClass.fromU8,
        ElfDataEncoding.fromU8, Bind.bind, Except.bind] at henc
      rw [← henc]
      simp [List.length_append, List.length_map, leBytes_length,
        beBytes_length, hmagic, hpad, elfHeaderSize, elfAddressSize]
  · intro ec ed r cfg h rf cfg' hdec
    unfold elfHeaderFromReader at hdec
    repeat' split at hdec
    all_goals injection hdec
    all_goals rename_i x dat rr hq hp
    all_goals injection hp with h1 h2
    all_goals subst h1
    all_goals exact readDataTail_length _ _ _ _ _ hq
  · rfl
  · exact ⟨sampleTailBytes.take 52, rfl, rfl, by decide⟩

/-- C10, instantiated: encoding the concrete sample header yields
exactly its original 52 bytes, whose length is the fixed-field total. -/
theorem claim_C10_witness :
    sampleBytes32.length = elfHeaderSize 1 ∧
      elfHeaderToWriter 1 1 sampleHeader32 = .ok sampleBytes32 :=
  ⟨claim_C10.1 1 1 sampleHeader32 sampleBytes32 (Or.inl rfl) (Or.inl rfl)
      rfl rfl rfl, rfl⟩

end Elf
